import Mathlib

/-!
Verification development for the OpenAPI-to-IR resolution engine
(`internal/parser`, `internal/codegen`, and the CLI conflict-resolution
pass).

Go maps have no specified iteration order, so every place the source
iterates a map is modelled by an association list whose list order stands
for the iteration order; two association lists that are permutations of
each other represent the same Go map.  Recursion through `$ref`
dereferences is bounded by an explicit `fuel` parameter; the source's
recursion depth on loader-produced documents is finite, and every theorem
is settled at sufficient fuel or uniformly in the fuel.
-/

namespace OpenapiGen

/-! ## String utilities (internal/parser: word splitting and casing) -/

/-- Go `isAlphanumeric` from the parser package: ASCII letter or digit. -/
def isAlphanumeric (r : Char) : Bool :=
  (97 ≤ r.toNat && r.toNat ≤ 122) || (65 ≤ r.toNat && r.toNat ≤ 90) ||
    (48 ≤ r.toNat && r.toNat ≤ 57)

/-- Go `isUpperCase` from the parser package: ASCII upper-case letter. -/
def isUpperCase (r : Char) : Bool :=
  65 ≤ r.toNat && r.toNat ≤ 90

/-- Character-wise map over a string (computable in the kernel). -/
def mapChars (f : Char → Char) (s : String) : String :=
  String.mk (s.toList.map f)

/-- `strings.ToLower` (ASCII use only in this code base). -/
def strToLower (s : String) : String := mapChars Char.toLower s

/-- `strings.ToUpper` (ASCII use only in this code base). -/
def strToUpper (s : String) : String := mapChars Char.toUpper s

/-- `strings.ReplaceAll` for a single-character pattern (every pattern the
parser replaces is a single character). -/
def replaceChar (c : Char) (rep : String) (s : String) : String :=
  String.mk ((s.toList.map fun d => if d = c then rep.toList else [d]).flatten)

/-- Worker for `splitChar`; `cur` holds the current piece reversed. -/
def splitCharAux (sep : Char) : List Char → List Char → List String
  | [], cur => [String.mk cur.reverse]
  | c :: rest, cur =>
    if c = sep then String.mk cur.reverse :: splitCharAux sep rest []
    else splitCharAux sep rest (c :: cur)

/-- `strings.Split` on a single-character separator. -/
def splitChar (sep : Char) (s : String) : List String :=
  splitCharAux sep s.toList []

/-- Worker for `splitWords`; `cur` holds the current word reversed. -/
def splitWordsAux : List Char → List Char → List String
  | [], cur => if cur.isEmpty then [] else [String.mk cur.reverse]
  | r :: rest, cur =>
    if ¬ isAlphanumeric r then
      if cur.isEmpty then splitWordsAux rest []
      else String.mk cur.reverse :: splitWordsAux rest []
    else if isUpperCase r ∧ ¬ cur.isEmpty then
      String.mk cur.reverse :: splitWordsAux rest [r]
    else
      splitWordsAux rest (r :: cur)

/-- Go `splitWords`: split on non-alphanumerics and before an upper-case
letter that follows a started word (camelCase boundary). -/
def splitWords (s : String) : List String :=
  splitWordsAux s.toList []

/-- `cases.Title(language.English).String(strings.ToLower(word))` applied to
a single word: lower-case the word, then upper-case its first letter. -/
def titleLower (w : String) : String :=
  match (strToLower w).toList with
  | [] => ""
  | c :: cs => String.mk (c.toUpper :: cs)

/-- Go `toCamelCase` from the parser package. -/
def toCamelCase (s : String) : String :=
  match splitWords s with
  | [] => s
  | w :: ws => ws.foldl (fun acc word => acc ++ titleLower word) (strToLower w)

/-- Go `toPascalCase` from the parser package. -/
def toPascalCase (s : String) : String :=
  (splitWords s).foldl (fun acc word => acc ++ titleLower word) ""

/-- Go `toSnakeCase` from the parser package. -/
def toSnakeCase (s : String) : String :=
  match splitWords s with
  | [] => ""
  | w :: ws => ws.foldl (fun acc word => acc ++ "_" ++ strToLower word) (strToLower w)

/-- Go's bytewise string `<=` (lexicographic; the inputs here are ASCII). -/
def charListLe : List Char → List Char → Bool
  | [], _ => true
  | _ :: _, [] => false
  | c :: cs, d :: ds =>
    if c.toNat < d.toNat then true
    else if d.toNat < c.toNat then false
    else charListLe cs ds

/-- Go's string `<=` on the underlying character sequences. -/
def strLe (a b : String) : Bool := charListLe a.toList b.toList

/-- `sort.Strings`: sort a list of strings ascending (insertion sort). -/
def insertSorted (x : String) : List String → List String
  | [] => [x]
  | y :: ys => if strLe x y then x :: y :: ys else y :: insertSorted x ys

/-- `sort.Strings` on a name list, as used for deterministic iteration. -/
def sortStrings : List String → List String
  | [] => []
  | x :: xs => insertSorted x (sortStrings xs)

/-- Go `sanitizeTag`: normalize a URL path into a Pascal-case identifier. -/
def sanitizeTag (path : String) : String :=
  let p1 := replaceChar '/' "_" path
  let p2 := replaceChar (Char.ofNat 123) "" p1
  let p3 := replaceChar (Char.ofNat 125) "" p2
  let p4 := replaceChar '-' "_" p3
  toPascalCase p4

/-- The single-quote character, as a string. -/
def squote : String := String.mk [Char.ofNat 39]

/-- A backslash followed by a single quote, as a string. -/
def escapedSquote : String := String.mk [Char.ofNat 92, Char.ofNat 39]

/-- `strings.ReplaceAll(valueStr, "'", "\\'")` from the enum handling in
`schemaToProperty`. -/
def escapeSingleQuotes (s : String) : String :=
  replaceChar (Char.ofNat 39) escapedSquote s

/-- ASCII digit test (`r >= '0' && r <= '9'`). -/
def isDigitChar (c : Char) : Bool :=
  48 ≤ c.toNat && c.toNat ≤ 57

/-- The always-valid enum-member characters: ASCII letters and `_`. -/
def isEnumLetter (c : Char) : Bool :=
  (65 ≤ c.toNat && c.toNat ≤ 90) || (97 ≤ c.toNat && c.toNat ≤ 122) || (c.toNat == 95)

/-- Go `toEnumVarName` from the parser package. -/
def toEnumVarName (value : String) : String :=
  let name := strToUpper value
  let name := replaceChar ' ' "_" name
  let name := replaceChar '-' "_" name
  let name := replaceChar '.' "_" name
  let name := replaceChar '+' "PLUS" name
  let name :=
    match name.toList with
    | c :: _ => if isDigitChar c then "_" ++ name else name
    | [] => name
  let validName := String.mk <|
    (name.toList.enum.filter fun ic =>
        isEnumLetter ic.2 || (decide (0 < ic.1) && isDigitChar ic.2)).map (·.2)
  if validName = "" then "VALUE" else validName

/-- Go `isPrimitiveType` from the parser package. -/
def isPrimitiveType (t : String) : Bool :=
  t == "string" || t == "number" || t == "boolean" || t == "any" ||
    t == "void" || t == "null" || t == "Date" || t == "Blob"

/-- Go `extractRefName`: the last `/`-separated component of a reference. -/
def extractRefName (ref : String) : String :=
  (splitChar '/' ref).getLastD ""

/-! ## Document data model (the already-loaded `openapi3` view the parser
consumes).  A `SchemaRef` (`R` below) is a pair of its `Ref` string and its
inline `Value`; for a non-empty `Ref` the resolved value is looked up in
the component-schema map, mirroring kin-openapi's pre-resolution. -/

/-- The fields of `openapi3.Schema` that the parser reads.  `R` stands for
`*openapi3.SchemaRef`.  Scalar `any`-typed fields (enum values, example,
default) carry their `fmt.Sprintf("%v", ·)` rendering. -/
structure SchemaF (R : Type) where
  type_ : List String := []
  format : String := ""
  nullable : Bool := false
  deprecated : Bool := false
  readOnly : Bool := false
  writeOnly : Bool := false
  title : String := ""
  description : String := ""
  pattern : String := ""
  enum : List String := []
  default_ : Option String := none
  exampleStr : String := "<nil>"
  required : List String := []
  properties : List (String × R) := []
  items : Option R := none
  additionalHas : Option Bool := none
  additionalSchema : Option R := none
  oneOf : List R := []
  anyOf : List R := []
  allOf : List R := []
  discriminatorName : Option String := none
  discriminatorMapping : List (String × String) := []
  uniqueItems : Bool := false
  minLength : Nat := 0
  maxLength : Option Nat := none
  minItems : Nat := 0
  maxItems : Option Nat := none
  minimum : Option Int := none
  maximum : Option Int := none
  exclusiveMin : Bool := false
  exclusiveMax : Bool := false

/-- `openapi3.Schema`, tied through `SchemaRef = Ref string × inline value`. -/
inductive Schema : Type where
  | mk : SchemaF (String × Option Schema) → Schema

/-- `*openapi3.SchemaRef`: the `Ref` string plus the inline `Value`
(present only for inline sub-schemas; referenced values resolve through
the component-schema map). -/
abbrev SRef : Type := String × Option Schema

/-- Underlying field record of a schema. -/
def Schema.f : Schema → SchemaF SRef
  | .mk x => x

/-- The component-schema map `Doc.Components.Schemas`, in iteration order. -/
abbrev Doc : Type := List (String × Schema)

/-- Look a schema name up in the component-schema map. -/
def lookupSchema (doc : Doc) (n : String) : Option Schema :=
  (doc.find? (fun e => e.1 == n)).map (·.2)

/-- `SchemaRef.Ref`. -/
def SRef.ref (r : SRef) : String := r.1

/-- `SchemaRef.Value`: the inline value, or — for a non-empty `Ref` — the
component schema named by the reference's last path segment, which is how
the loader pre-resolves internal `#/components/schemas/Name` references. -/
def SRef.value (doc : Doc) (r : SRef) : Option Schema :=
  if r.1 = "" then r.2 else lookupSchema doc (extractRefName r.1)

/-! ## The parser and its pluggable naming/type callbacks -/

/-- `parser.Parser`: the pluggable hooks consulted by the resolution pass
(`GetTypeFunc`, `ToModelNameFunc`, `ToVarNameFunc`); `none` means the nil
Go function pointer, which selects the built-in default. -/
structure Parser where
  GetTypeFunc : Option (String → String → String) := none
  ToModelNameFunc : Option (String → String) := none
  ToVarNameFunc : Option (String → String) := none

/-- `Parser.getSchemaType`: callback first, then the built-in TypeScript
default mapping. -/
def Parser.getSchemaType (p : Parser) (schemaType format : String) : String :=
  match p.GetTypeFunc with
  | some f => f schemaType format
  | none =>
    if schemaType = "integer" ∨ schemaType = "number" then "number"
    else if schemaType = "boolean" then "boolean"
    else if schemaType = "string" then
      if format = "date" ∨ format = "date-time" then "Date"
      else if format = "binary" then "Blob"
      else "string"
    else if schemaType = "array" then "Array"
    else if schemaType = "object" then "any"
    else if schemaType = "" then "any"
    else schemaType

/-- `Parser.toModelName`: callback or `toPascalCase`. -/
def Parser.toModelName (p : Parser) (name : String) : String :=
  match p.ToModelNameFunc with
  | some f => f name
  | none => toPascalCase name

/-- `Parser.toVarName`: callback or `toCamelCase`. -/
def Parser.toVarName (p : Parser) (name : String) : String :=
  match p.ToVarNameFunc with
  | some f => f name
  | none => toCamelCase name

/-! ## Property IR (`internal/codegen.CodegenProperty`) -/

/-- One entry of the `enumVars` list inside `AllowableValues`. -/
structure EnumVar where
  name : String := ""
  value : String := ""
deriving DecidableEq, Repr

/-- The `allowableValues` bag: the raw `values` plus derived `enumVars`. -/
structure AllowableValues where
  values : List String := []
  enumVars : List EnumVar := []
deriving DecidableEq, Repr

/-- The fields of `codegen.CodegenProperty`; `R` stands for
`*CodegenProperty` in the recursive `Items` position.  Optional numeric
pointers are `Option Int`; the opaque vendor-extension bag is omitted. -/
structure CodegenPropertyF (R : Type) where
  Name : String := ""
  BaseName : String := ""
  Required : Bool := false
  Deprecated : Bool := false
  IsReadOnly : Bool := false
  IsWriteOnly : Bool := false
  IsNullable : Bool := false
  Description : String := ""
  UnescapedDescription : String := ""
  Title : String := ""
  Example : String := ""
  NameInLowerCase : String := ""
  NameInCamelCase : String := ""
  NameInPascalCase : String := ""
  NameInSnakeCase : String := ""
  Getter : String := ""
  Setter : String := ""
  OpenApiType : String := ""
  IsEnum : Bool := false
  IsInnerEnum : Bool := false
  AllowableValues : Option AllowableValues := none
  EnumName : String := ""
  DatatypeWithEnum : String := ""
  IsArray : Bool := false
  IsContainer : Bool := false
  ContainerType : String := ""
  Items : Option R := none
  DataType : String := ""
  Datatype : String := ""
  BaseType : String := ""
  ComplexType : String := ""
  UniqueItems : Bool := false
  IsMap : Bool := false
  IsFreeFormObject : Bool := false
  IsPrimitiveType : Bool := false
  IsString : Bool := false
  IsDate : Bool := false
  IsDateTime : Bool := false
  IsUuid : Bool := false
  IsUri : Bool := false
  IsEmail : Bool := false
  IsPassword : Bool := false
  IsBinary : Bool := false
  IsFile : Bool := false
  IsByteArray : Bool := false
  IsInteger : Bool := false
  IsNumeric : Bool := false
  IsLong : Bool := false
  IsNumber : Bool := false
  IsFloat : Bool := false
  IsDouble : Bool := false
  IsBoolean : Bool := false
  IsModel : Bool := false
  IsAnyType : Bool := false
  Pattern : String := ""
  Minimum : String := ""
  Maximum : String := ""
  MinLength : Option Int := none
  MaxLength : Option Int := none
  MinItems : Option Int := none
  MaxItems : Option Int := none
  ExclusiveMinimum : Bool := false
  ExclusiveMaximum : Bool := false
  HasValidation : Bool := false
  DefaultValue : String := ""

/-- `codegen.CodegenProperty`, tied through the recursive `Items` field. -/
inductive CodegenProperty : Type where
  | mk : CodegenPropertyF CodegenProperty → CodegenProperty

/-- Underlying field record of a property. -/
def CodegenProperty.f : CodegenProperty → CodegenPropertyF CodegenProperty
  | .mk x => x

/-- Apply a field update to a property (models a Go field assignment). -/
def CodegenProperty.upd (x : CodegenProperty)
    (g : CodegenPropertyF CodegenProperty → CodegenPropertyF CodegenProperty) :
    CodegenProperty :=
  .mk (g x.f)

def CodegenProperty.Name (x : CodegenProperty) : String := x.f.Name
def CodegenProperty.BaseName (x : CodegenProperty) : String := x.f.BaseName
def CodegenProperty.Required (x : CodegenProperty) : Bool := x.f.Required
def CodegenProperty.IsReadOnly (x : CodegenProperty) : Bool := x.f.IsReadOnly
def CodegenProperty.AllowableValues (x : CodegenProperty) :
    Option AllowableValues := x.f.AllowableValues
def CodegenProperty.EnumName (x : CodegenProperty) : String := x.f.EnumName
def CodegenProperty.DatatypeWithEnum (x : CodegenProperty) : String := x.f.DatatypeWithEnum
def CodegenProperty.IsEnum (x : CodegenProperty) : Bool := x.f.IsEnum
def CodegenProperty.IsArray (x : CodegenProperty) : Bool := x.f.IsArray
def CodegenProperty.IsContainer (x : CodegenProperty) : Bool := x.f.IsContainer
def CodegenProperty.ContainerType (x : CodegenProperty) : String := x.f.ContainerType
def CodegenProperty.Items (x : CodegenProperty) : Option CodegenProperty := x.f.Items
def CodegenProperty.DataType (x : CodegenProperty) : String := x.f.DataType
def CodegenProperty.Datatype (x : CodegenProperty) : String := x.f.Datatype
def CodegenProperty.BaseType (x : CodegenProperty) : String := x.f.BaseType
def CodegenProperty.ComplexType (x : CodegenProperty) : String := x.f.ComplexType
def CodegenProperty.IsMap (x : CodegenProperty) : Bool := x.f.IsMap
def CodegenProperty.IsFreeFormObject (x : CodegenProperty) : Bool := x.f.IsFreeFormObject
def CodegenProperty.IsPrimitiveType (x : CodegenProperty) : Bool := x.f.IsPrimitiveType
def CodegenProperty.IsString (x : CodegenProperty) : Bool := x.f.IsString
def CodegenProperty.IsDate (x : CodegenProperty) : Bool := x.f.IsDate
def CodegenProperty.IsDateTime (x : CodegenProperty) : Bool := x.f.IsDateTime
def CodegenProperty.IsBinary (x : CodegenProperty) : Bool := x.f.IsBinary
def CodegenProperty.IsFile (x : CodegenProperty) : Bool := x.f.IsFile
def CodegenProperty.IsInteger (x : CodegenProperty) : Bool := x.f.IsInteger
def CodegenProperty.IsLong (x : CodegenProperty) : Bool := x.f.IsLong
def CodegenProperty.IsNumber (x : CodegenProperty) : Bool := x.f.IsNumber
def CodegenProperty.IsFloat (x : CodegenProperty) : Bool := x.f.IsFloat
def CodegenProperty.IsDouble (x : CodegenProperty) : Bool := x.f.IsDouble
def CodegenProperty.IsBoolean (x : CodegenProperty) : Bool := x.f.IsBoolean
def CodegenProperty.IsModel (x : CodegenProperty) : Bool := x.f.IsModel
def CodegenProperty.IsAnyType (x : CodegenProperty) : Bool := x.f.IsAnyType

/-- `if prop.DataType == "" { prop.DataType = "any"; prop.IsAnyType = true }`:
the resolver's universal "degrade to any" guard. -/
def propGuardAnyStep (prop : CodegenPropertyF CodegenProperty) :
    CodegenPropertyF CodegenProperty :=
  if prop.DataType = "" then { prop with DataType := "any", IsAnyType := true } else prop

/-- `prop.Datatype = prop.DataType` (template-compatibility alias sync). -/
def propSyncDatatypeStep (prop : CodegenPropertyF CodegenProperty) :
    CodegenPropertyF CodegenProperty :=
  { prop with Datatype := prop.DataType }

/-- `if prop.Items != nil && prop.Items.Datatype == "" { ... }`. -/
def propSyncItemsStep (prop : CodegenPropertyF CodegenProperty) :
    CodegenPropertyF CodegenProperty :=
  match prop.Items with
  | some it =>
    if it.Datatype = "" then
      { prop with Items := some (it.upd fun x => { x with Datatype := x.DataType }) }
    else prop
  | none => prop

/-- `if prop.DatatypeWithEnum == "" { prop.DatatypeWithEnum = prop.DataType }`. -/
def propEnumTypeSyncStep (prop : CodegenPropertyF CodegenProperty) :
    CodegenPropertyF CodegenProperty :=
  if prop.DatatypeWithEnum = "" then { prop with DatatypeWithEnum := prop.DataType } else prop

/-- The validation-constraint assignments copied from the schema. -/
def propValidationStep (s : SchemaF SRef) (prop : CodegenPropertyF CodegenProperty) :
    CodegenPropertyF CodegenProperty :=
  { prop with
    Pattern := s.pattern
    Minimum := match s.minimum with | some v => toString v | none => ""
    Maximum := match s.maximum with | some v => toString v | none => ""
    MinLength := if s.minLength = 0 then none else some (s.minLength : Int)
    MaxLength := s.maxLength.map Int.ofNat
    MinItems := if s.minItems = 0 then none else some (s.minItems : Int)
    MaxItems := s.maxItems.map Int.ofNat
    ExclusiveMinimum := s.exclusiveMin
    ExclusiveMaximum := s.exclusiveMax }

/-- `prop.HasValidation = ...` (true iff any constraint is present). -/
def propHasValidationStep (prop : CodegenPropertyF CodegenProperty) :
    CodegenPropertyF CodegenProperty :=
  { prop with HasValidation :=
    (prop.Pattern != "") || (prop.Minimum != "") || (prop.Maximum != "") ||
      prop.MinLength.isSome || prop.MaxLength.isSome ||
      prop.MinItems.isSome || prop.MaxItems.isSome }

/-- `if schema.Default != nil { prop.DefaultValue = ... }`. -/
def propDefaultStep (s : SchemaF SRef) (prop : CodegenPropertyF CodegenProperty) :
    CodegenPropertyF CodegenProperty :=
  match s.default_ with
  | some d => { prop with DefaultValue := d }
  | none => prop

/-- The tail of `Parser.schemaToProperty` after the type switch: the
empty-type guard (degrade to `any`), the `Datatype`/`DatatypeWithEnum`
syncs, and the validation/default fields, in source order. -/
def propFinalize (s : SchemaF SRef) (prop : CodegenPropertyF CodegenProperty) :
    CodegenProperty :=
  .mk (propSyncDatatypeStep (propDefaultStep s (propHasValidationStep
    (propValidationStep s (propEnumTypeSyncStep (propSyncItemsStep
      (propSyncDatatypeStep (propGuardAnyStep prop))))))))

/-- The initial `CodegenProperty` literal of `schemaToProperty`, the name
variants and the getter/setter names. -/
def Parser.propBase (p : Parser) (name : String) (s : SchemaF SRef)
    (required : Bool) : CodegenPropertyF CodegenProperty :=
  let prop : CodegenPropertyF CodegenProperty := {
    Name := p.toVarName name
    BaseName := name
    Required := required
    Deprecated := s.deprecated
    IsReadOnly := s.readOnly
    IsWriteOnly := s.writeOnly
    IsNullable := s.nullable
    Description := s.description
    UnescapedDescription := s.description
    Title := s.title
    Example := s.exampleStr }
  { prop with
    NameInLowerCase := strToLower prop.Name
    NameInCamelCase := p.toVarName name
    NameInPascalCase := p.toModelName name
    NameInSnakeCase := toSnakeCase name
    Getter := "get" ++ p.toModelName name
    Setter := "set" ++ p.toModelName name }

/-- The enum-handling block of `schemaToProperty`: collect the literal
values, derive a sanitized member name per value (escaping single quotes
in the literal text), and synthesize the enum type name. -/
def Parser.propEnumStep (p : Parser) (name : String) (s : SchemaF SRef)
    (prop : CodegenPropertyF CodegenProperty) : CodegenPropertyF CodegenProperty :=
  if s.enum = [] then prop
  else
    { prop with
      IsEnum := true
      IsInnerEnum := true
      AllowableValues := some {
        values := s.enum
        enumVars := s.enum.map fun v =>
          { name := toEnumVarName v, value := escapeSingleQuotes v } }
      EnumName := p.toModelName name ++ "Enum"
      DatatypeWithEnum := p.toModelName name ++ "Enum" }

/-- The `case "array"` branch of the type switch of `schemaToProperty`. -/
def Parser.propArrayBranch (p : Parser) (doc : Doc)
    (recur : String → Schema → Bool → CodegenProperty) (name : String)
    (s : SchemaF SRef) (prop : CodegenPropertyF CodegenProperty) :
    CodegenPropertyF CodegenProperty :=
  let prop := { prop with IsArray := true, IsContainer := true, ContainerType := "array" }
  let prop :=
    match s.items with
    | some itemsRef =>
      if itemsRef.ref ≠ "" then
        let refName := extractRefName itemsRef.ref
        let modelName := p.toModelName refName
        { prop with
          Items := some (CodegenProperty.mk
            { DataType := modelName, Datatype := modelName, IsModel := true })
          DataType := "Array<" ++ modelName ++ ">"
          Datatype := "Array<" ++ modelName ++ ">"
          BaseType := modelName
          ComplexType := modelName }
      else
        match SRef.value doc itemsRef with
        | some itemSchema =>
          let itemProp := recur (name ++ "Item") itemSchema false
          let prop := { prop with
            Items := some itemProp
            DataType := "Array<" ++ itemProp.DataType ++ ">"
            Datatype := "Array<" ++ itemProp.DataType ++ ">"
            BaseType := itemProp.DataType }
          if itemProp.IsModel then { prop with ComplexType := itemProp.DataType }
          else prop
        | none =>
          { prop with DataType := "Array<any>", Datatype := "Array<any>", BaseType := "any" }
    | none =>
      { prop with DataType := "Array<any>", Datatype := "Array<any>", BaseType := "any" }
  { prop with UniqueItems := s.uniqueItems }

/-- The `case "object"` branch of the type switch of `schemaToProperty`. -/
def Parser.propObjectBranch (_p : Parser) (doc : Doc)
    (recur : String → Schema → Bool → CodegenProperty)
    (s : SchemaF SRef) (prop : CodegenPropertyF CodegenProperty) :
    CodegenPropertyF CodegenProperty :=
  if s.properties.isEmpty = false then
    { prop with
      DataType := "any"
      BaseType := "any"
      IsPrimitiveType := true
      IsFreeFormObject := true }
  else if s.additionalHas = some true then
    let prop := { prop with IsMap := true, IsContainer := true, ContainerType := "map" }
    let prop :=
      match s.additionalSchema with
      | some adRef =>
        match SRef.value doc adRef with
        | some adSchema =>
          let itemProp := recur "value" adSchema false
          { prop with
            Items := some itemProp
            DataType := "\x7b [key: string]: " ++ itemProp.DataType ++ "; \x7d"
            BaseType := itemProp.DataType
            IsPrimitiveType := itemProp.IsPrimitiveType }
        | none =>
          { prop with
            DataType := "\x7b [key: string]: any; \x7d"
            BaseType := "any"
            IsPrimitiveType := true }
      | none =>
        { prop with
          DataType := "\x7b [key: string]: any; \x7d"
          BaseType := "any"
          IsPrimitiveType := true }
    { prop with IsFreeFormObject := true }
  else
    { prop with IsFreeFormObject := true, DataType := "any", IsPrimitiveType := true }

/-- The `case "string"` branch of the type switch of `schemaToProperty`. -/
def Parser.propStringBranch (p : Parser) (s : SchemaF SRef)
    (prop : CodegenPropertyF CodegenProperty) : CodegenPropertyF CodegenProperty :=
  let prop := { prop with IsString := true, IsPrimitiveType := true }
  if s.format = "date" then
    { prop with IsDate := true, DataType := p.getSchemaType "string" "date" }
  else if s.format = "date-time" then
    { prop with IsDateTime := true, DataType := p.getSchemaType "string" "date-time" }
  else if s.format = "uuid" then { prop with IsUuid := true, DataType := "string" }
  else if s.format = "uri" then { prop with IsUri := true, DataType := "string" }
  else if s.format = "email" then { prop with IsEmail := true, DataType := "string" }
  else if s.format = "password" then { prop with IsPassword := true, DataType := "string" }
  else if s.format = "binary" then
    { prop with IsBinary := true, IsFile := true, DataType := "Blob", IsPrimitiveType := false }
  else if s.format = "byte" then { prop with IsByteArray := true, DataType := "string" }
  else { prop with DataType := "string" }

/-- The `case "integer"` branch of the type switch of `schemaToProperty`. -/
def propIntegerBranch (s : SchemaF SRef)
    (prop : CodegenPropertyF CodegenProperty) : CodegenPropertyF CodegenProperty :=
  let prop := { prop with IsInteger := true, IsNumeric := true, IsPrimitiveType := true }
  let prop := if s.format = "int64" then { prop with IsLong := true } else prop
  { prop with DataType := "number" }

/-- The `case "number"` branch of the type switch of `schemaToProperty`. -/
def propNumberBranch (s : SchemaF SRef)
    (prop : CodegenPropertyF CodegenProperty) : CodegenPropertyF CodegenProperty :=
  let prop := { prop with IsNumber := true, IsNumeric := true, IsPrimitiveType := true }
  let prop :=
    if s.format = "float" then { prop with IsFloat := true }
    else if s.format = "double" then { prop with IsDouble := true }
    else prop
  { prop with DataType := "number" }

/-- The `case "boolean"` branch of the type switch of `schemaToProperty`. -/
def propBooleanBranch (prop : CodegenPropertyF CodegenProperty) :
    CodegenPropertyF CodegenProperty :=
  { prop with IsBoolean := true, IsPrimitiveType := true, DataType := "boolean" }

/-- The `default` branch of the type switch of `schemaToProperty`
(possible `$ref`-style or unmapped type strings). -/
def Parser.propOtherBranch (p : Parser) (s : SchemaF SRef) (schemaType : String)
    (prop : CodegenPropertyF CodegenProperty) : CodegenPropertyF CodegenProperty :=
  let prop := { prop with DataType := p.getSchemaType schemaType s.format }
  if prop.DataType ≠ "any" ∧ prop.DataType ≠ "" then { prop with IsModel := true }
  else prop

/-- The type switch of `schemaToProperty`.  `recur` is the recursive call
(at one less fuel) used for inline array items and additional-properties
value schemas. -/
def Parser.propTypeSwitch (p : Parser) (doc : Doc)
    (recur : String → Schema → Bool → CodegenProperty) (name : String)
    (s : SchemaF SRef) (schemaType : String)
    (prop : CodegenPropertyF CodegenProperty) : CodegenPropertyF CodegenProperty :=
  if schemaType = "array" then p.propArrayBranch doc recur name s prop
  else if schemaType = "object" then p.propObjectBranch doc recur s prop
  else if schemaType = "string" then p.propStringBranch s prop
  else if schemaType = "integer" then propIntegerBranch s prop
  else if schemaType = "number" then propNumberBranch s prop
  else if schemaType = "boolean" then propBooleanBranch prop
  else p.propOtherBranch s schemaType prop
set_option maxHeartbeats 1000000 in
/-- `Parser.schemaToProperty`: resolve one schema node into one Property
IR node.  `fuel` bounds the recursion depth (nested inline sub-schemas and
`$ref` dereferences); at exhausted fuel the resolver's universal
"degrade to any" policy value is returned. -/
def Parser.schemaToProperty (p : Parser) (doc : Doc) :
    Nat → String → Schema → Bool → CodegenProperty
  | 0, _, _, _ => .mk { DataType := "any", Datatype := "any", IsAnyType := true }
  | fuel + 1, name, schema, required =>
    let s := schema.f
    let prop := p.propBase name s required
    let schemaType := s.type_.headD ""
    let prop := { prop with OpenApiType := schemaType }
    let prop := p.propEnumStep name s prop
    let prop := p.propTypeSwitch doc
      (fun nm sch req => p.schemaToProperty doc fuel nm sch req) name s schemaType prop
    propFinalize s prop

/-! ## Model IR (`internal/codegen.CodegenModel`) and the model resolver -/

/-- `codegen.MappedModel`: one discriminator mapping entry. -/
structure MappedModel where
  MappingName : String := ""
  ModelName : String := ""
deriving DecidableEq, Repr

/-- `codegen.CodegenDiscriminator`. -/
structure CodegenDiscriminator where
  PropertyName : String := ""
  PropertyBaseName : String := ""
  Mapping : List (String × String) := []
  MappedModels : List MappedModel := []
deriving Repr

/-- `codegen.CodegenModel` (the fields the resolver writes). -/
structure CodegenModel where
  Name : String := ""
  SchemaName : String := ""
  Classname : String := ""
  ClassVarName : String := ""
  ClassFilename : String := ""
  Title : String := ""
  Description : String := ""
  UnescapedDescription : String := ""
  IsNullable : Bool := false
  IsDeprecated : Bool := false
  IsEnum : Bool := false
  AllowableValues : Option AllowableValues := none
  HasVars : Bool := false
  Vars : List CodegenProperty := []
  AllVars : List CodegenProperty := []
  RequiredVars : List CodegenProperty := []
  OptionalVars : List CodegenProperty := []
  ReadOnlyVars : List CodegenProperty := []
  HasRequired : Bool := false
  HasOptional : Bool := false
  HasReadOnly : Bool := false
  IsAdditionalPropertiesTrue : Bool := false
  AdditionalPropertiesType : String := ""
  IsArray : Bool := false
  Items : Option CodegenProperty := none
  ArrayModelType : String := ""
  IsString : Bool := false
  IsInteger : Bool := false
  IsNumeric : Bool := false
  IsNumber : Bool := false
  IsBoolean : Bool := false
  IsPrimitiveType : Bool := false
  DataType : String := ""
  OneOf : List String := []
  OneOfModels : List String := []
  HasOneOf : Bool := false
  AnyOf : List String := []
  AllOf : List String := []
  Parent : String := ""
  Discriminator : Option CodegenDiscriminator := none
  HasDiscriminatorWithNonEmptyMapping : Bool := false
  Imports : List String := []
  Pattern : String := ""
  Minimum : String := ""
  Maximum : String := ""
  MinLength : Option Int := none
  MaxLength : Option Int := none
  MinItems : Option Int := none
  MaxItems : Option Int := none
  UniqueItems : Bool := false
  ExclusiveMinimum : Bool := false
  ExclusiveMaximum : Bool := false

/-- Go `filterRequired`. -/
def filterRequired (props : List CodegenProperty) : List CodegenProperty :=
  props.filter (·.Required)

/-- Go `filterOptional`. -/
def filterOptional (props : List CodegenProperty) : List CodegenProperty :=
  props.filter (fun x => !x.Required)

/-- Go `filterReadOnly`. -/
def filterReadOnly (props : List CodegenProperty) : List CodegenProperty :=
  props.filter (·.IsReadOnly)

/-- Go map index `schema.Properties[name]`. -/
def lookupProp (props : List (String × SRef)) (n : String) : Option SRef :=
  (props.find? (fun e => e.1 == n)).map (·.2)

/-- `Parser.extractProperties`: resolve an object schema's properties in
sorted name order (the receiver's model argument is unused in the source). -/
def Parser.extractProperties (p : Parser) (doc : Doc) (fuel : Nat)
    (schema : Schema) : List CodegenProperty :=
  let s := schema.f
  if s.properties.isEmpty then []
  else
    let propNames := sortStrings (s.properties.map (·.1))
    propNames.filterMap fun name =>
      match lookupProp s.properties name with
      | none => none
      | some propRef =>
        match SRef.value doc propRef with
        | none => none
        | some ps =>
          some (p.schemaToProperty doc fuel name ps (s.required.contains name))

/-- `Parser.getTypeDeclaration`. -/
def Parser.getTypeDeclaration (p : Parser) : Option Schema → String
  | none => "any"
  | some schema =>
    let s := schema.f
    let refs := s.allOf.filterMap fun r =>
      if r.ref ≠ "" then some (p.toModelName (extractRefName r.ref)) else none
    if ¬ s.allOf.isEmpty ∧ ¬ refs.isEmpty then refs.headD ""
    else p.getSchemaType (s.type_.headD "") s.format

/-- Insert into a dedup set kept as a list (Go `map[string]bool`; the
order is irrelevant because every such set is sorted before use). -/
def insertIfAbsent (l : List String) (x : String) : List String :=
  if l.contains x then l else l ++ [x]

/-- `Parser.collectImports`: every non-self, non-primitive name referenced
from Vars, array items or composition lists, deduplicated and sorted. -/
def Parser.collectImports (_p : Parser) (model : CodegenModel) : List String :=
  let acc := model.Vars.foldl (fun acc prop =>
    let acc :=
      if prop.IsModel && prop.DataType != model.Classname &&
          !(isPrimitiveType prop.DataType) then
        insertIfAbsent acc prop.DataType
      else acc
    match prop.Items with
    | some it =>
      if it.IsModel && it.DataType != model.Classname &&
          !(isPrimitiveType it.DataType) then
        insertIfAbsent acc it.DataType
      else acc
    | none => acc) []
  let acc := model.OneOf.foldl (fun acc r =>
    if r != model.Classname && !(isPrimitiveType r) then insertIfAbsent acc r else acc) acc
  let acc := model.AnyOf.foldl (fun acc r =>
    if r != model.Classname && !(isPrimitiveType r) then insertIfAbsent acc r else acc) acc
  let acc := model.AllOf.foldl (fun acc r =>
    if r != model.Classname && !(isPrimitiveType r) then insertIfAbsent acc r else acc) acc
  sortStrings acc

/-- The body of the `allOf` loop of `Parser.schemaToModel`: a referenced
branch is recorded in `AllOf` (the first one also becoming `Parent`); an
inline branch carrying properties has them appended to `Vars`. -/
def Parser.allOfStep (p : Parser) (doc : Doc) (fuel : Nat)
    (m : CodegenModel) (r : SRef) : CodegenModel :=
  if r.ref ≠ "" then
    let refName := extractRefName r.ref
    let m := { m with AllOf := m.AllOf ++ [refName] }
    if m.Parent = "" then { m with Parent := p.toModelName refName } else m
  else
    match SRef.value doc r with
    | some v =>
      if ¬ v.f.properties.isEmpty then
        { m with Vars := m.Vars ++ p.extractProperties doc fuel v }
      else m
    | none => m

set_option maxHeartbeats 1000000 in
/-- `Parser.schemaToModel`: resolve one named schema into a Model IR node. -/
def Parser.schemaToModel (p : Parser) (doc : Doc) (fuel : Nat)
    (name : String) (schema : Schema) : CodegenModel :=
  let s := schema.f
  let model : CodegenModel := {
    Name := name
    SchemaName := name
    Classname := p.toModelName name
    ClassVarName := p.toVarName name
    ClassFilename := p.toModelName name
    Title := s.title
    Description := s.description
    UnescapedDescription := s.description
    IsNullable := s.nullable
    IsDeprecated := s.deprecated }
  let schemaType :=
    if s.type_.isEmpty then
      if ¬ s.enum.isEmpty then s.type_
      else if ¬ s.properties.isEmpty then ["object"]
      else s.type_
    else s.type_
  let model :=
    if s.enum.isEmpty then model
    else { model with IsEnum := true, AllowableValues := some { values := s.enum } }
  let model :=
    match schemaType.head? with
    | none => model
    | some primaryType =>
      let model :=
        if primaryType = "object" then
          let vars := p.extractProperties doc fuel schema
          let model := { model with
            HasVars := !s.properties.isEmpty
            Vars := vars
            AllVars := vars
            RequiredVars := filterRequired vars
            OptionalVars := filterOptional vars
            ReadOnlyVars := filterReadOnly vars }
          let model := { model with
            HasRequired := !model.RequiredVars.isEmpty
            HasOptional := !model.OptionalVars.isEmpty
            HasReadOnly := !model.ReadOnlyVars.isEmpty }
          let model :=
            if s.additionalHas = some true then
              { model with IsAdditionalPropertiesTrue := true }
            else model
          match s.additionalSchema with
          | some adRef =>
            { model with AdditionalPropertiesType := p.getTypeDeclaration (SRef.value doc adRef) }
          | none => model
        else if primaryType = "array" then
          let model := { model with IsArray := true }
          match s.items with
          | some itemsRef =>
            match SRef.value doc itemsRef with
            | some itemSchema =>
              let itemProp := p.schemaToProperty doc fuel "items" itemSchema false
              { model with Items := some itemProp, ArrayModelType := itemProp.DataType }
            | none => model
          | none => model
        else if primaryType = "string" then
          { model with IsString := true, IsPrimitiveType := true }
        else if primaryType = "integer" then
          { model with IsInteger := true, IsNumeric := true, IsPrimitiveType := true }
        else if primaryType = "number" then
          { model with IsNumber := true, IsNumeric := true, IsPrimitiveType := true }
        else if primaryType = "boolean" then
          { model with IsBoolean := true, IsPrimitiveType := true }
        else model
      { model with DataType := p.getSchemaType primaryType s.format }
  let model :=
    if s.oneOf.isEmpty then model
    else
      let acc := s.oneOf.foldl (fun (acc : List String × List String) r =>
        if r.ref ≠ "" then
          let modelName := p.toModelName (extractRefName r.ref)
          (acc.1 ++ [modelName],
           if isPrimitiveType modelName then acc.2 else insertIfAbsent acc.2 modelName)
        else
          match SRef.value doc r with
          | some v =>
            let typeName := p.getTypeDeclaration (some v)
            (acc.1 ++ [typeName],
             if isPrimitiveType typeName then acc.2 else insertIfAbsent acc.2 typeName)
          | none => acc) ([], [])
      { model with
        OneOf := acc.1
        OneOfModels := sortStrings acc.2
        HasOneOf := !acc.1.isEmpty }
  let model :=
    if s.anyOf.isEmpty then model
    else { model with AnyOf := s.anyOf.filterMap fun r =>
      if r.ref ≠ "" then some (extractRefName r.ref) else none }
  let model :=
    if s.allOf.isEmpty then model
    else s.allOf.foldl (p.allOfStep doc fuel) model
  let model :=
    match s.discriminatorName with
    | none => model
    | some dn =>
      let disc : CodegenDiscriminator :=
        { PropertyName := dn, PropertyBaseName := dn, Mapping := s.discriminatorMapping }
      if s.discriminatorMapping.isEmpty then { model with Discriminator := some disc }
      else
        { model with
          HasDiscriminatorWithNonEmptyMapping := true
          Discriminator := some { disc with
            MappedModels := s.discriminatorMapping.map fun (mp : String × String) =>
              { MappingName := mp.1, ModelName := extractRefName mp.2 } } }
  let model := { model with Imports := p.collectImports model }
  let model := { model with
    Pattern := s.pattern
    Minimum := match s.minimum with | some v => toString v | none => ""
    Maximum := match s.maximum with | some v => toString v | none => ""
    MinLength := if s.minLength = 0 then none else some (s.minLength : Int)
    MaxLength := s.maxLength.map Int.ofNat
    MinItems := if s.minItems = 0 then none else some (s.minItems : Int)
    MaxItems := s.maxItems.map Int.ofNat
    UniqueItems := s.uniqueItems
    ExclusiveMinimum := s.exclusiveMin
    ExclusiveMaximum := s.exclusiveMax }
  model

/-- `Parser.GetModels`: all component schemas, resolved in sorted name
order for deterministic output. -/
def Parser.GetModels (p : Parser) (doc : Doc) (fuel : Nat) : List CodegenModel :=
  let schemaNames := sortStrings (doc.map (·.1))
  schemaNames.filterMap fun name =>
    match lookupSchema doc name with
    | none => none
    | some schema => some (p.schemaToModel doc fuel name schema)

/-! ## Operation IR and the operation resolver -/

/-- `strings.HasPrefix`. -/
def strHasPre (s pre : String) : Bool :=
  pre.toList.isPrefixOf s.toList

/-- `openapi3.Parameter` (the fields the resolver reads). -/
structure Param where
  name : String := ""
  in_ : String := ""
  required : Bool := false
  description : String := ""
  deprecated : Bool := false
  style : String := ""
  explode : Option Bool := none
  schema : Option SRef := none
  exampleStr : Option String := none

/-- `codegen.CodegenParameter` (the fields the resolver writes). -/
structure CodegenParameter where
  BaseName : String := ""
  ParamName : String := ""
  Required : Bool := false
  Description : String := ""
  UnescapedDescription : String := ""
  IsDeprecated : Bool := false
  Style : String := ""
  IsExplode : Bool := false
  NameInLowerCase : String := ""
  NameInCamelCase : String := ""
  NameInPascalCase : String := ""
  NameInSnakeCase : String := ""
  IsPathParam : Bool := false
  IsQueryParam : Bool := false
  IsHeaderParam : Bool := false
  IsCookieParam : Bool := false
  IsBodyParam : Bool := false
  DataType : String := ""
  BaseType : String := ""
  DataFormat : String := ""
  ContentType : String := ""
  IsArray : Bool := false
  IsMap : Bool := false
  IsString : Bool := false
  IsInteger : Bool := false
  IsLong : Bool := false
  IsNumber : Bool := false
  IsFloat : Bool := false
  IsDouble : Bool := false
  IsBoolean : Bool := false
  IsDate : Bool := false
  IsDateTime : Bool := false
  IsEnum : Bool := false
  IsPrimitiveType : Bool := false
  IsModel : Bool := false
  IsContainer : Bool := false
  Items : Option CodegenProperty := none
  AllowableValues : Option AllowableValues := none
  EnumName : String := ""
  DatatypeWithEnum : String := ""
  CollectionFormat : String := ""
  IsCollectionFormatMulti : Bool := false
  Example : String := ""

/-- `Parser.parameterToCodegen`. -/
def Parser.parameterToCodegen (p : Parser) (doc : Doc) (fuel : Nat)
    (param : Param) : CodegenParameter :=
  let cp : CodegenParameter := {
    BaseName := param.name
    ParamName := p.toVarName param.name
    Required := param.required
    Description := param.description
    UnescapedDescription := param.description
    IsDeprecated := param.deprecated
    Style := param.style
    IsExplode := param.explode == some true }
  let cp := { cp with
    NameInLowerCase := strToLower cp.ParamName
    NameInCamelCase := cp.ParamName
    NameInPascalCase := p.toModelName param.name
    NameInSnakeCase := toSnakeCase param.name }
  let cp :=
    if param.in_ = "path" then { cp with IsPathParam := true }
    else if param.in_ = "query" then { cp with IsQueryParam := true }
    else if param.in_ = "header" then { cp with IsHeaderParam := true }
    else if param.in_ = "cookie" then { cp with IsCookieParam := true }
    else cp
  let cp :=
    match param.schema with
    | none => cp
    | some sr =>
      match SRef.value doc sr with
      | none => cp
      | some schema =>
        let prop := p.schemaToProperty doc fuel param.name schema param.required
        let cp := { cp with
          DataType := prop.DataType
          BaseType := prop.BaseType
          DataFormat := schema.f.format
          IsArray := prop.IsArray
          IsMap := prop.IsMap
          IsString := prop.IsString
          IsInteger := prop.IsInteger
          IsLong := prop.IsLong
          IsNumber := prop.IsNumber
          IsFloat := prop.IsFloat
          IsDouble := prop.IsDouble
          IsBoolean := prop.IsBoolean
          IsDate := prop.IsDate
          IsDateTime := prop.IsDateTime
          IsEnum := prop.IsEnum
          IsPrimitiveType := prop.IsPrimitiveType
          IsModel := prop.IsModel
          IsContainer := prop.IsContainer
          Items := prop.Items
          AllowableValues := prop.AllowableValues
          EnumName := prop.EnumName
          DatatypeWithEnum := prop.DatatypeWithEnum }
        if cp.IsArray then
          { cp with CollectionFormat := "multi", IsCollectionFormatMulti := true }
        else cp
  match param.exampleStr with
  | some e => { cp with Example := e }
  | none => cp

/-- `openapi3.MediaType`. -/
structure MediaTypeObj where
  schema : Option SRef := none

/-- `openapi3.Header` (value part of a header reference). -/
structure HeaderObj where
  description : String := ""
  schema : Option SRef := none

/-- `openapi3.Response` (value part of a response reference). -/
structure ResponseObj where
  description : Option String := none
  content : List (String × MediaTypeObj) := []
  headers : List (String × Option HeaderObj) := []

/-- `openapi3.RequestBody` (value part of a request-body reference). -/
structure RequestBodyObj where
  required : Bool := false
  description : String := ""
  content : List (String × MediaTypeObj) := []

/-- `codegen.CodegenResponse` (the fields the resolver writes). -/
structure CodegenResponse where
  Code : String := ""
  Message : String := ""
  Description : String := ""
  UnescapedDescription : String := ""
  IsDefault : Bool := false
  Is1xx : Bool := false
  Is2xx : Bool := false
  Is3xx : Bool := false
  Is4xx : Bool := false
  Is5xx : Bool := false
  DataType : String := ""
  BaseType : String := ""
  IsModel : Bool := false
  IsArray : Bool := false
  IsMap : Bool := false
  IsBinary : Bool := false
  IsFile : Bool := false
  IsPrimitiveType : Bool := false
  IsString : Bool := false
  IsInteger : Bool := false
  IsNumber : Bool := false
  IsBoolean : Bool := false
  Items : Option CodegenProperty := none
  ContainerType : String := ""
  SimpleType : Bool := false
  PrimitiveType : Bool := false
  Headers : List CodegenProperty := []
  HasHeaders : Bool := false

/-- Does the first character of `s` equal `c` (`strings.HasPrefix` with a
one-character pattern)? -/
def firstCharIs (s : String) (c : Char) : Bool :=
  match s.toList with
  | [] => false
  | d :: _ => d = c

/-- `Parser.responseToCodegen`. -/
def Parser.responseToCodegen (p : Parser) (doc : Doc) (fuel : Nat)
    (code : String) (resp : ResponseObj) : CodegenResponse :=
  let desc := resp.description.getD ""
  let cr : CodegenResponse :=
    { Code := code, Message := desc, Description := desc, UnescapedDescription := desc }
  let cr :=
    if code = "default" then { cr with IsDefault := true }
    else if firstCharIs code '1' then { cr with Is1xx := true }
    else if firstCharIs code '2' then { cr with Is2xx := true }
    else if firstCharIs code '3' then { cr with Is3xx := true }
    else if firstCharIs code '4' then { cr with Is4xx := true }
    else if firstCharIs code '5' then { cr with Is5xx := true }
    else cr
  let cr :=
    match resp.content.find? (fun (e : String × MediaTypeObj) => e.2.schema.isSome) with
    | none => cr
    | some (_, mt) =>
      match mt.schema with
      | none => cr
      | some sr =>
        if sr.ref ≠ "" then
          let modelName0 := p.toModelName (extractRefName sr.ref)
          let modelName := if modelName0 = "" then "any" else modelName0
          { cr with DataType := modelName, BaseType := modelName, IsModel := true }
        else
          match SRef.value doc sr with
          | none => cr
          | some schema =>
            let prop := p.schemaToProperty doc fuel "response" schema false
            { cr with
              DataType := prop.DataType
              BaseType := prop.BaseType
              IsArray := prop.IsArray
              IsMap := prop.IsMap
              IsModel := prop.IsModel
              IsBinary := prop.IsBinary
              IsFile := prop.IsFile
              IsPrimitiveType := prop.IsPrimitiveType
              IsString := prop.IsString
              IsInteger := prop.IsInteger
              IsNumber := prop.IsNumber
              IsBoolean := prop.IsBoolean
              Items := prop.Items
              ContainerType := prop.ContainerType
              SimpleType := prop.IsPrimitiveType
              PrimitiveType := prop.IsPrimitiveType }
  let cr := resp.headers.foldl (fun (cr : CodegenResponse) (entry : String × Option HeaderObj) =>
    match entry.2 with
    | none => cr
    | some header =>
      let prop : CodegenProperty := .mk
        { Name := entry.1, BaseName := entry.1, Description := header.description }
      let prop :=
        match header.schema with
        | some hsr =>
          match SRef.value doc hsr with
          | some hschema =>
            prop.upd fun x => { x with DataType := p.getTypeDeclaration (some hschema) }
          | none => prop
        | none => prop
      { cr with Headers := cr.Headers ++ [prop] }) cr
  { cr with HasHeaders := !cr.Headers.isEmpty }

/-- `openapi3.Operation` (the fields the resolver reads).  Response-map
and security-requirement entries are association lists in Go map
iteration order; `none` entries stand for nil references. -/
structure Operation where
  tags : List String := []
  operationID : String := ""
  summary : String := ""
  description : String := ""
  deprecated : Bool := false
  parameters : List (Option Param) := []
  requestBody : Option RequestBodyObj := none
  responses : Option (List (String × Option ResponseObj)) := none
  security : Option (List (List (String × List String))) := none

/-- One `{"mediaType": ct}` entry of `Consumes`. -/
structure MediaTypeEntry where
  mediaType : String := ""
deriving DecidableEq, Repr

/-- One scope entry of `CodegenSecurity.Scopes`. -/
structure ScopeEntry where
  scope : String := ""
  description : String := ""
deriving DecidableEq, Repr

/-- `codegen.CodegenSecurity` (the fields the resolver writes). -/
structure CodegenSecurity where
  Name : String := ""
  Description : String := ""
  Type_ : String := ""
  Scheme : String := ""
  IsApiKey : Bool := false
  KeyParamName : String := ""
  IsKeyInQuery : Bool := false
  IsKeyInHeader : Bool := false
  IsKeyInCookie : Bool := false
  IsBasic : Bool := false
  IsBasicBasic : Bool := false
  IsBasicBearer : Bool := false
  BearerFormat : String := ""
  IsOAuth : Bool := false
  IsCode : Bool := false
  AuthorizationUrl : String := ""
  TokenUrl : String := ""
  RefreshUrl : String := ""
  Scopes : List ScopeEntry := []
  IsImplicit : Bool := false
  IsPassword : Bool := false
  IsApplication : Bool := false
  HasScopes : Bool := false
  IsOpenId : Bool := false
  OpenIdConnectUrl : String := ""
deriving DecidableEq, Repr

/-- `codegen.CodegenOperation` (the fields the resolver writes). -/
structure CodegenOperation where
  Path : String := ""
  HttpMethod : String := ""
  OperationId : String := ""
  OperationIdOriginal : String := ""
  OperationIdCamelCase : String := ""
  OperationIdLowerCase : String := ""
  OperationIdSnakeCase : String := ""
  Nickname : String := ""
  BaseName : String := ""
  Summary : String := ""
  Notes : String := ""
  UnescapedNotes : String := ""
  IsDeprecated : Bool := false
  AllParams : List CodegenParameter := []
  BodyParams : List CodegenParameter := []
  PathParams : List CodegenParameter := []
  QueryParams : List CodegenParameter := []
  HeaderParams : List CodegenParameter := []
  CookieParams : List CodegenParameter := []
  RequiredParams : List CodegenParameter := []
  OptionalParams : List CodegenParameter := []
  BodyParam : Option CodegenParameter := none
  HasOptionalParams : Bool := false
  Responses : List CodegenResponse := []
  ReturnType : String := ""
  ReturnBaseType : String := ""
  ReturnContainer : String := ""
  ReturnSimpleType : Bool := false
  ReturnTypeIsPrimitive : Bool := false
  IsArray : Bool := false
  IsMap : Bool := false
  IsResponseBinary : Bool := false
  IsResponseFile : Bool := false
  IsMultipart : Bool := false
  Consumes : List MediaTypeEntry := []
  HasConsumes : Bool := false
  AuthMethods : List CodegenSecurity := []
  HasAuthMethods : Bool := false
  Imports : List String := []

/-- Worker for `deduplicateParams`: `seen` maps a name to its position in
`result`; a repeated name overwrites the earlier slot in place. -/
def dedupParamsGo (seen : List (String × Nat)) (result : List CodegenParameter) :
    List CodegenParameter → List CodegenParameter
  | [] => result
  | param :: rest =>
    let key := param.ParamName
    match seen.find? (fun e => e.1 == key) with
    | some entry => dedupParamsGo seen (result.set entry.2 param) rest
    | none => dedupParamsGo (seen ++ [(key, result.length)]) (result ++ [param]) rest

/-- Go `deduplicateParams`: drop duplicate parameters by (normalized)
name, the last occurrence winning at the first occurrence's position. -/
def deduplicateParams (params : List CodegenParameter) : List CodegenParameter :=
  if params.isEmpty then params else dedupParamsGo [] [] params

/-- `Parser.collectOperationImports`. -/
def Parser.collectOperationImports (_p : Parser) (op : CodegenOperation) : List String :=
  let acc := op.AllParams.foldl (fun acc param =>
    let acc :=
      if param.IsModel && !(isPrimitiveType param.DataType) then
        insertIfAbsent acc param.DataType
      else acc
    match param.Items with
    | some it =>
      if it.IsModel && !(isPrimitiveType it.DataType) then
        insertIfAbsent acc it.DataType
      else acc
    | none => acc) []
  let acc :=
    if op.ReturnType ≠ "" ∧ ¬ isPrimitiveType op.ReturnType ∧
        ¬ isPrimitiveType op.ReturnBaseType then
      insertIfAbsent acc op.ReturnBaseType
    else acc
  sortStrings acc

/-- Body of the path-item-level parameter loop of `operationToCodegen`:
the parameter joins `AllParams` and `PathParams` (whatever its location). -/
def Parser.pathItemParamStep (p : Parser) (doc : Doc) (fuel : Nat)
    (co : CodegenOperation) (pr : Option Param) : CodegenOperation :=
  match pr with
  | none => co
  | some prm =>
    let param := p.parameterToCodegen doc fuel prm
    { co with
      AllParams := co.AllParams ++ [param]
      PathParams := co.PathParams ++ [param] }

/-- Body of the operation-level parameter loop of `operationToCodegen`. -/
def Parser.operationParamStep (p : Parser) (doc : Doc) (fuel : Nat)
    (co : CodegenOperation) (pr : Option Param) : CodegenOperation :=
  match pr with
  | none => co
  | some prm =>
    let param := p.parameterToCodegen doc fuel prm
    let co := { co with AllParams := co.AllParams ++ [param] }
    let co :=
      if prm.in_ = "path" then { co with PathParams := co.PathParams ++ [param] }
      else if prm.in_ = "query" then { co with QueryParams := co.QueryParams ++ [param] }
      else if prm.in_ = "header" then { co with HeaderParams := co.HeaderParams ++ [param] }
      else if prm.in_ = "cookie" then { co with CookieParams := co.CookieParams ++ [param] }
      else co
    if param.Required then { co with RequiredParams := co.RequiredParams ++ [param] }
    else { co with OptionalParams := co.OptionalParams ++ [param], HasOptionalParams := true }

/-- Body of the response loop of `operationToCodegen`: every non-nil
response is resolved and appended; a 2xx response with a non-empty data
type overwrites the selected return type. -/
def Parser.responseStep (p : Parser) (doc : Doc) (fuel : Nat)
    (co : CodegenOperation) (entry : String × Option ResponseObj) : CodegenOperation :=
  match entry.2 with
  | none => co
  | some respObj =>
    let resp := p.responseToCodegen doc fuel entry.1 respObj
    let co := { co with Responses := co.Responses ++ [resp] }
    if firstCharIs entry.1 '2' && resp.DataType != "" then
      let co := { co with
        ReturnType := resp.DataType
        ReturnBaseType := resp.BaseType
        ReturnSimpleType := resp.SimpleType
        ReturnTypeIsPrimitive := resp.PrimitiveType }
      let co :=
        if resp.IsArray then { co with IsArray := true, ReturnContainer := "array" }
        else co
      let co :=
        if resp.IsMap then { co with IsMap := true, ReturnContainer := "map" }
        else co
      if resp.IsBinary || resp.IsFile then
        { co with IsResponseBinary := true, IsResponseFile := resp.IsFile }
      else co
    else co

/-- Body of the inner security loop of `operationToCodegen`: one binding
per (scheme-name, scopes) pair. -/
def securityEntryStep (co : CodegenOperation)
    (nameScopes : String × List String) : CodegenOperation :=
  let sec : CodegenSecurity := {
    Name := nameScopes.1
    Scopes := nameScopes.2.map fun scope => { scope := scope } }
  { co with AuthMethods := co.AuthMethods ++ [sec] }

/-- Body of the authoritative required/optional rebuild loop over the
deduplicated `AllParams`. -/
def requiredOptionalRebuild (co : CodegenOperation)
    (param : CodegenParameter) : CodegenOperation :=
  if param.Required then { co with RequiredParams := co.RequiredParams ++ [param] }
  else { co with OptionalParams := co.OptionalParams ++ [param], HasOptionalParams := true }

/-- The request-body paragraph of `operationToCodegen`: a pseudo
body-parameter is synthesized from the first content type whose schema is
present; a `multipart/` content type raises the multipart flag. -/
def Parser.opRequestBodyPhase (p : Parser) (doc : Doc)
    (body? : Option RequestBodyObj) (co : CodegenOperation) : CodegenOperation :=
  match body? with
  | none => co
  | some body =>
    match body.content.find? (fun (e : String × MediaTypeObj) =>
        match e.2.schema with
        | some sr => (SRef.value doc sr).isSome
        | none => false) with
    | none => co
    | some (contentType, mt) =>
      let bodyParam : CodegenParameter := {
        ParamName := "body"
        BaseName := "body"
        IsBodyParam := true
        Required := body.required
        Description := body.description
        ContentType := contentType }
      let bodyParam :=
        match mt.schema with
        | none => bodyParam
        | some sr =>
          if sr.ref ≠ "" then
            let modelName0 := p.toModelName (extractRefName sr.ref)
            let modelName := if modelName0 = "" then "any" else modelName0
            { bodyParam with DataType := modelName, BaseType := modelName, IsModel := true }
          else
            let dt := p.getTypeDeclaration (SRef.value doc sr)
            { bodyParam with DataType := dt, BaseType := dt }
      let bodyParam :=
        if bodyParam.DataType = "" then
          { bodyParam with DataType := "any", BaseType := "any" }
        else bodyParam
      let co := { co with
        BodyParam := some bodyParam
        BodyParams := co.BodyParams ++ [bodyParam]
        AllParams := co.AllParams ++ [bodyParam] }
      let co :=
        if bodyParam.Required then
          { co with RequiredParams := co.RequiredParams ++ [bodyParam] }
        else
          { co with
            OptionalParams := co.OptionalParams ++ [bodyParam]
            HasOptionalParams := true }
      if strHasPre contentType "multipart/" then { co with IsMultipart := true } else co

/-- The response paragraph of `operationToCodegen`. -/
def Parser.opResponsesPhase (p : Parser) (doc : Doc) (fuel : Nat)
    (resps? : Option (List (String × Option ResponseObj))) (co : CodegenOperation) :
    CodegenOperation :=
  match resps? with
  | none => co
  | some resps => resps.foldl (p.responseStep doc fuel) co

/-- The content-type paragraph of `operationToCodegen`. -/
def opConsumesPhase (body? : Option RequestBodyObj) (co : CodegenOperation) :
    CodegenOperation :=
  match body? with
  | none => co
  | some body =>
    let co := { co with
      Consumes := co.Consumes ++ body.content.map
        (fun (e : String × MediaTypeObj) => ({ mediaType := e.1 } : MediaTypeEntry)) }
    { co with HasConsumes := !co.Consumes.isEmpty }

/-- The security paragraph of `operationToCodegen`. -/
def opSecurityPhase (sec? : Option (List (List (String × List String))))
    (co : CodegenOperation) : CodegenOperation :=
  match sec? with
  | none => co
  | some secReqs =>
    let co := secReqs.foldl (fun (co : CodegenOperation) (secReq : List (String × List String)) =>
      secReq.foldl securityEntryStep co) co
    { co with HasAuthMethods := !co.AuthMethods.isEmpty }

/-- The parameter-deduplication paragraph of `operationToCodegen`. -/
def opDedupPhase (co : CodegenOperation) : CodegenOperation :=
  { co with
    AllParams := deduplicateParams co.AllParams
    PathParams := deduplicateParams co.PathParams
    QueryParams := deduplicateParams co.QueryParams
    HeaderParams := deduplicateParams co.HeaderParams }

/-- The authoritative required/optional rebuild from the deduplicated
`AllParams`. -/
def opRebuildPhase (co : CodegenOperation) : CodegenOperation :=
  let co := { co with
    RequiredParams := []
    OptionalParams := []
    HasOptionalParams := false }
  co.AllParams.foldl requiredOptionalRebuild co

/-- The import-collection tail of `operationToCodegen`. -/
def Parser.opImportsPhase (p : Parser) (co : CodegenOperation) : CodegenOperation :=
  { co with Imports := p.collectOperationImports co }

set_option maxHeartbeats 1600000 in
/-- `Parser.operationToCodegen`: resolve a path+method into an Operation
IR node.  `pathParams` are the path-item-level parameters. -/
def Parser.operationToCodegen (p : Parser) (doc : Doc) (fuel : Nat)
    (path method : String) (op : Operation) (pathParams : List (Option Param)) :
    CodegenOperation :=
  let co : CodegenOperation := {
    Path := path
    HttpMethod := method
    OperationId := op.operationID
    OperationIdOriginal := op.operationID
    Summary := op.summary
    Notes := op.description
    UnescapedNotes := op.description
    IsDeprecated := op.deprecated }
  let co :=
    if co.OperationId = "" then
      { co with OperationId := strToLower method ++ sanitizeTag path }
    else co
  let co := { co with
    OperationIdCamelCase := toCamelCase co.OperationId
    OperationIdLowerCase := strToLower co.OperationId
    OperationIdSnakeCase := toSnakeCase co.OperationId }
  let co := { co with Nickname := co.OperationIdCamelCase }
  let co :=
    match op.tags.head? with
    | some t => { co with BaseName := t }
    | none => { co with BaseName := "default" }
  let co := pathParams.foldl (p.pathItemParamStep doc fuel) co
  let co := op.parameters.foldl (p.operationParamStep doc fuel) co
  let co := p.opRequestBodyPhase doc op.requestBody co
  let co := p.opResponsesPhase doc fuel op.responses co
  let co := opConsumesPhase op.requestBody co
  let co := opSecurityPhase op.security co
  let co := opDedupPhase co
  let co := opRebuildPhase co
  p.opImportsPhase co

/-! ## Security schemes -/

/-- One OAuth flow of `openapi3.OAuthFlows`. -/
structure OAuthFlowObj where
  authorizationURL : String := ""
  tokenURL : String := ""
  refreshURL : String := ""
  scopes : List (String × String) := []
deriving DecidableEq, Repr

/-- `openapi3.OAuthFlows`. -/
structure OAuthFlowsObj where
  authorizationCode : Option OAuthFlowObj := none
  implicit : Option OAuthFlowObj := none
  password : Option OAuthFlowObj := none
  clientCredentials : Option OAuthFlowObj := none
deriving DecidableEq, Repr

/-- `openapi3.SecurityScheme`. -/
structure SecurityScheme where
  type_ : String := ""
  description : String := ""
  scheme : String := ""
  name : String := ""
  in_ : String := ""
  bearerFormat : String := ""
  flows : Option OAuthFlowsObj := none
  openIdConnectUrl : String := ""
deriving DecidableEq, Repr

/-- Go `scopesToList` (a scope map in iteration order). -/
def scopesToList (scopes : List (String × String)) : List ScopeEntry :=
  scopes.map fun e => { scope := e.1, description := e.2 }

/-- `Parser.securitySchemeToCodegen`. -/
def Parser.securitySchemeToCodegen (_p : Parser) (name : String)
    (scheme : SecurityScheme) : CodegenSecurity :=
  let cs : CodegenSecurity := {
    Name := name
    Description := scheme.description
    Type_ := scheme.type_
    Scheme := scheme.scheme }
  if scheme.type_ = "apiKey" then
    let cs := { cs with IsApiKey := true, KeyParamName := scheme.name }
    if scheme.in_ = "query" then { cs with IsKeyInQuery := true }
    else if scheme.in_ = "header" then { cs with IsKeyInHeader := true }
    else if scheme.in_ = "cookie" then { cs with IsKeyInCookie := true }
    else cs
  else if scheme.type_ = "http" then
    let cs := { cs with IsBasic := true }
    if strToLower scheme.scheme = "basic" then { cs with IsBasicBasic := true }
    else if strToLower scheme.scheme = "bearer" then
      { cs with IsBasicBearer := true, BearerFormat := scheme.bearerFormat }
    else cs
  else if scheme.type_ = "oauth2" then
    let cs := { cs with IsOAuth := true }
    let cs :=
      match scheme.flows with
      | none => cs
      | some flows =>
        match flows.authorizationCode with
        | some flow =>
          { cs with
            IsCode := true
            AuthorizationUrl := flow.authorizationURL
            TokenUrl := flow.tokenURL
            RefreshUrl := flow.refreshURL
            Scopes := scopesToList flow.scopes }
        | none =>
          match flows.implicit with
          | some flow =>
            { cs with
              IsImplicit := true
              AuthorizationUrl := flow.authorizationURL
              Scopes := scopesToList flow.scopes }
          | none =>
            match flows.password with
            | some flow =>
              { cs with
                IsPassword := true
                TokenUrl := flow.tokenURL
                Scopes := scopesToList flow.scopes }
            | none =>
              match flows.clientCredentials with
              | some flow =>
                { cs with
                  IsApplication := true
                  TokenUrl := flow.tokenURL
                  Scopes := scopesToList flow.scopes }
              | none => cs
    { cs with HasScopes := !cs.Scopes.isEmpty }
  else if scheme.type_ = "openIdConnect" then
    { cs with IsOpenId := true, OpenIdConnectUrl := scheme.openIdConnectUrl }
  else cs

/-- `Parser.GetSecuritySchemes`: iterate the security-scheme map in its
iteration order (the list order); nil entries are skipped. -/
def Parser.GetSecuritySchemes (p : Parser)
    (securitySchemes : List (String × Option SecurityScheme)) :
    List CodegenSecurity :=
  securitySchemes.foldl (fun acc entry =>
    match entry.2 with
    | none => acc
    | some scheme => acc ++ [p.securitySchemeToCodegen entry.1 scheme]) []

/-! ## Grouping operations by tag (`Parser.GetOperations`) -/

/-- `openapi3.PathItem` (the per-method operations and shared parameters). -/
structure PathItem where
  get : Option Operation := none
  post : Option Operation := none
  put : Option Operation := none
  delete : Option Operation := none
  patch : Option Operation := none
  options : Option Operation := none
  head : Option Operation := none
  parameters : List (Option Param) := []

/-- Index the `methods` map literal of `GetOperations` by method name. -/
def PathItem.methodOp (pitem : PathItem) : String → Option Operation
  | "GET" => pitem.get
  | "POST" => pitem.post
  | "PUT" => pitem.put
  | "DELETE" => pitem.delete
  | "PATCH" => pitem.patch
  | "OPTIONS" => pitem.options
  | "HEAD" => pitem.head
  | _ => none

/-- The key set of the `methods` map literal of `GetOperations`. -/
def httpMethodNames : List String :=
  ["GET", "POST", "PUT", "DELETE", "PATCH", "OPTIONS", "HEAD"]

/-- `operationsByTag[tag] = append(operationsByTag[tag], operation)`. -/
def appendToGroup (m : List (String × List CodegenOperation)) (tag : String)
    (op : CodegenOperation) : List (String × List CodegenOperation) :=
  if m.any (fun e => e.1 == tag) then
    m.map fun e => if e.1 == tag then (e.1, e.2 ++ [op]) else e
  else m ++ [(tag, [op])]

/-- Look a path up in the paths map. -/
def lookupPath (paths : List (String × PathItem)) (n : String) : Option PathItem :=
  (paths.find? (fun e => e.1 == n)).map (·.2)

/-- `Parser.GetOperations`: operations grouped by tag.  Paths are visited
in sorted order; the per-path `methods` map literal is visited in
`methodOrder` (Go map iteration order — any permutation of
`httpMethodNames`). -/
def Parser.GetOperations (p : Parser) (doc : Doc) (fuel : Nat)
    (paths : List (String × PathItem)) (methodOrder : List String) :
    List (String × List CodegenOperation) :=
  let pathNames := sortStrings (paths.map (·.1))
  pathNames.foldl (fun acc path =>
    match lookupPath paths path with
    | none => acc
    | some pitem =>
      methodOrder.foldl (fun acc method =>
        match pitem.methodOp method with
        | none => acc
        | some op =>
          let operation := p.operationToCodegen doc fuel path method op pitem.parameters
          let tag := if op.tags.isEmpty then "default" else op.tags.headD "default"
          appendToGroup acc tag operation) acc) []

/-! ## Operation-id conflict resolution (CLI `runGenerate`) -/

/-- Go map update `operationIDs[opID] = v`. -/
def updAssoc (st : List (String × Nat)) (k : String) (v : Nat) : List (String × Nat) :=
  if st.any (fun e => e.1 == k) then st.map (fun e => if e.1 == k then (k, v) else e)
  else st ++ [(k, v)]

/-- Worker for `resolveOperationIdConflicts`: `st` is the
`operationIDs` map. -/
def resolveOpIdsAux (st : List (String × Nat)) :
    List CodegenOperation → List CodegenOperation
  | [] => []
  | op :: rest =>
    let opID := op.OperationId
    match st.find? (fun e => e.1 == opID) with
    | some entry =>
      let suffix := entry.2 + 1
      let newID := opID ++ toString suffix
      { op with OperationId := newID, Nickname := newID } ::
        resolveOpIdsAux (updAssoc st opID suffix) rest
    | none => op :: resolveOpIdsAux (updAssoc st opID 0) rest

/-- The per-tag duplicate-operation-id renaming pass of `runGenerate`:
the first operation with a given id keeps it; the `k`-th later duplicate
gets the suffix `k`. -/
def resolveOperationIdConflicts (ops : List CodegenOperation) : List CodegenOperation :=
  resolveOpIdsAux [] ops

/-! ## Helper definitions for the claim statements -/

-- C5 machinery
def allOfRefNames (branches : List SRef) : List String :=
  branches.filterMap fun r => if r.ref ≠ "" then some (extractRefName r.ref) else none

def Parser.allOfInlineVars (p : Parser) (doc : Doc) (fuel : Nat) (r : SRef) :
    List CodegenProperty :=
  if r.ref ≠ "" then []
  else
    match SRef.value doc r with
    | some v => if ¬ v.f.properties.isEmpty then p.extractProperties doc fuel v else []
    | none => []

def Parser.allOfParent (p : Parser) : List SRef → String
  | [] => ""
  | r :: bs =>
    if r.ref ≠ "" ∧ p.toModelName (extractRefName r.ref) ≠ "" then
      p.toModelName (extractRefName r.ref)
    else p.allOfParent bs

def Parser.modelSkeleton (p : Parser) (name : String) : CodegenModel :=
  { Name := name
    SchemaName := name
    Classname := p.toModelName name
    ClassVarName := p.toVarName name
    ClassFilename := p.toModelName name }

def ageSchema : Schema := Schema.mk { type_ := ["integer"] }

def dogSchema : Schema :=
  Schema.mk { allOf := [
    ("#/components/schemas/Animal", none),
    ("", some (Schema.mk { type_ := ["object"], properties := [("age", ("", some ageSchema))] }))] }

def animalDoc : Doc :=
  [("Animal", Schema.mk {
      type_ := ["object"]
      properties := [("name", ("", some (Schema.mk { type_ := ["string"] })))] })]

def NewParser : Parser := {}

-- C9 machinery
def enumPunctToUnderscore (c : Char) : Char :=
  if c = ' ' ∨ c = '-' ∨ c = '.' then Char.ofNat 95 else c

def toEnumVarNameSpec (value : String) : String :=
  let name := strToUpper value
  let name := String.mk (name.toList.map enumPunctToUnderscore)
  let name := replaceChar '+' "PLUS" name
  let name :=
    match name.toList with
    | c :: _ => if isDigitChar c then "_" ++ name else name
    | [] => name
  let validName := String.mk (name.toList.filter fun c => isEnumLetter c || isDigitChar c)
  if validName = "" then "VALUE" else validName

-- C3 machinery
def opHeader (path method : String) (op : Operation) : CodegenOperation :=
  let co : CodegenOperation := {
    Path := path
    HttpMethod := method
    OperationId := op.operationID
    OperationIdOriginal := op.operationID
    Summary := op.summary
    Notes := op.description
    UnescapedNotes := op.description
    IsDeprecated := op.deprecated }
  let co :=
    if co.OperationId = "" then
      { co with OperationId := strToLower method ++ sanitizeTag path }
    else co
  let co := { co with
    OperationIdCamelCase := toCamelCase co.OperationId
    OperationIdLowerCase := strToLower co.OperationId
    OperationIdSnakeCase := toSnakeCase co.OperationId }
  let co := { co with Nickname := co.OperationIdCamelCase }
  let co :=
    match op.tags.head? with
    | some t => { co with BaseName := t }
    | none => { co with BaseName := "default" }
  co

def Parser.resolvedParams (p : Parser) (doc : Doc) (fuel : Nat)
    (prs : List (Option Param)) : List CodegenParameter :=
  prs.filterMap fun pr => pr.map (p.parameterToCodegen doc fuel)

def groupsTagged (m : List (String × List CodegenOperation)) : Prop :=
  ∀ t os, (t, os) ∈ m → ∀ o ∈ os, o.BaseName = t

def demoPaths : List (String × PathItem) :=
  [("/pets", { get := some { operationID := "listPets", tags := ["pets"] } }),
   ("/misc", { get := some { operationID := "miscOp" } })]

def petOps : List CodegenOperation :=
  [{ OperationId := "listPets" }, { OperationId := "listPets" },
   { OperationId := "listPets" }]

-- t4 closed theorems (C1, C2, C4 counterexample)

-- C1 closed
def sA : SecurityScheme := { type_ := "apiKey", name := "key", in_ := "header" }

def sB : SecurityScheme := { type_ := "http", scheme := "basic" }

def schemesAB : List (String × Option SecurityScheme) := [("a", some sA), ("b", some sB)]

def schemesBA : List (String × Option SecurityScheme) := [("b", some sB), ("a", some sA)]

-- C2 closed
def petResp : ResponseObj := { content := [("application/json",
  { schema := some ("#/components/schemas/Pet", none) })] }

def errResp : ResponseObj := { content := [("application/json",
  { schema := some ("#/components/schemas/Error", none) })] }

def op200201 : Operation := { operationID := "getPet", responses := some [("200", some petResp), ("201", some errResp)] }

def op201200 : Operation := { operationID := "getPet", responses := some [("201", some errResp), ("200", some petResp)] }

-- C4 counterexample closed
def cycleNodeSchema : Schema := .mk { type_ := ["object"], properties := [("next", ("#/components/schemas/Node", none))] }

def cycleNodeDoc : Doc := [("Node", cycleNodeSchema)]

-- witnesses
def petDoc : Doc := [("Pet", Schema.mk { type_ := ["object"] })]

def petArraySchema : Schema :=
  Schema.mk { type_ := ["array"], items := some ("#/components/schemas/Pet", none) }

end OpenapiGen

open OpenapiGen

/-! ## Verification lemmas and claim theorems -/



lemma SyncDatatype_pres_IsFreeFormObject (prop : CodegenPropertyF CodegenProperty) :
    (propSyncDatatypeStep prop).IsFreeFormObject = prop.IsFreeFormObject := rfl

lemma SyncDatatype_pres_IsModel (prop : CodegenPropertyF CodegenProperty) :
    (propSyncDatatypeStep prop).IsModel = prop.IsModel := rfl

lemma SyncDatatype_pres_IsArray (prop : CodegenPropertyF CodegenProperty) :
    (propSyncDatatypeStep prop).IsArray = prop.IsArray := rfl

lemma SyncDatatype_pres_IsContainer (prop : CodegenPropertyF CodegenProperty) :
    (propSyncDatatypeStep prop).IsContainer = prop.IsContainer := rfl

lemma SyncDatatype_pres_ContainerType (prop : CodegenPropertyF CodegenProperty) :
    (propSyncDatatypeStep prop).ContainerType = prop.ContainerType := rfl

lemma SyncDatatype_pres_BaseType (prop : CodegenPropertyF CodegenProperty) :
    (propSyncDatatypeStep prop).BaseType = prop.BaseType := rfl

lemma SyncDatatype_pres_AllowableValues (prop : CodegenPropertyF CodegenProperty) :
    (propSyncDatatypeStep prop).AllowableValues = prop.AllowableValues := rfl

lemma SyncDatatype_pres_IsPrimitiveType (prop : CodegenPropertyF CodegenProperty) :
    (propSyncDatatypeStep prop).IsPrimitiveType = prop.IsPrimitiveType := rfl

lemma Validation_pres_IsFreeFormObject (s : SchemaF SRef) (prop : CodegenPropertyF CodegenProperty) :
    (propValidationStep s prop).IsFreeFormObject = prop.IsFreeFormObject := rfl

lemma Validation_pres_IsModel (s : SchemaF SRef) (prop : CodegenPropertyF CodegenProperty) :
    (propValidationStep s prop).IsModel = prop.IsModel := rfl

lemma Validation_pres_IsArray (s : SchemaF SRef) (prop : CodegenPropertyF CodegenProperty) :
    (propValidationStep s prop).IsArray = prop.IsArray := rfl

lemma Validation_pres_IsContainer (s : SchemaF SRef) (prop : CodegenPropertyF CodegenProperty) :
    (propValidationStep s prop).IsContainer = prop.IsContainer := rfl

lemma Validation_pres_ContainerType (s : SchemaF SRef) (prop : CodegenPropertyF CodegenProperty) :
    (propValidationStep s prop).ContainerType = prop.ContainerType := rfl

lemma Validation_pres_BaseType (s : SchemaF SRef) (prop : CodegenPropertyF CodegenProperty) :
    (propValidationStep s prop).BaseType = prop.BaseType := rfl

lemma Validation_pres_AllowableValues (s : SchemaF SRef) (prop : CodegenPropertyF CodegenProperty) :
    (propValidationStep s prop).AllowableValues = prop.AllowableValues := rfl

lemma Validation_pres_IsPrimitiveType (s : SchemaF SRef) (prop : CodegenPropertyF CodegenProperty) :
    (propValidationStep s prop).IsPrimitiveType = prop.IsPrimitiveType := rfl

lemma HasValidation_pres_IsFreeFormObject (prop : CodegenPropertyF CodegenProperty) :
    (propHasValidationStep prop).IsFreeFormObject = prop.IsFreeFormObject := rfl

lemma HasValidation_pres_IsModel (prop : CodegenPropertyF CodegenProperty) :
    (propHasValidationStep prop).IsModel = prop.IsModel := rfl

lemma HasValidation_pres_IsArray (prop : CodegenPropertyF CodegenProperty) :
    (propHasValidationStep prop).IsArray = prop.IsArray := rfl

lemma HasValidation_pres_IsContainer (prop : CodegenPropertyF CodegenProperty) :
    (propHasValidationStep prop).IsContainer = prop.IsContainer := rfl

lemma HasValidation_pres_ContainerType (prop : CodegenPropertyF CodegenProperty) :
    (propHasValidationStep prop).ContainerType = prop.ContainerType := rfl

lemma HasValidation_pres_BaseType (prop : CodegenPropertyF CodegenProperty) :
    (propHasValidationStep prop).BaseType = prop.BaseType := rfl

lemma HasValidation_pres_AllowableValues (prop : CodegenPropertyF CodegenProperty) :
    (propHasValidationStep prop).AllowableValues = prop.AllowableValues := rfl

lemma HasValidation_pres_IsPrimitiveType (prop : CodegenPropertyF CodegenProperty) :
    (propHasValidationStep prop).IsPrimitiveType = prop.IsPrimitiveType := rfl

lemma GuardAny_pres_IsFreeFormObject (prop : CodegenPropertyF CodegenProperty) :
    (propGuardAnyStep prop).IsFreeFormObject = prop.IsFreeFormObject := by unfold propGuardAnyStep; split <;> rfl

lemma GuardAny_pres_IsModel (prop : CodegenPropertyF CodegenProperty) :
    (propGuardAnyStep prop).IsModel = prop.IsModel := by unfold propGuardAnyStep; split <;> rfl

lemma GuardAny_pres_IsArray (prop : CodegenPropertyF CodegenProperty) :
    (propGuardAnyStep prop).IsArray = prop.IsArray := by unfold propGuardAnyStep; split <;> rfl

lemma GuardAny_pres_IsContainer (prop : CodegenPropertyF CodegenProperty) :
    (propGuardAnyStep prop).IsContainer = prop.IsContainer := by unfold propGuardAnyStep; split <;> rfl

lemma GuardAny_pres_ContainerType (prop : CodegenPropertyF CodegenProperty) :
    (propGuardAnyStep prop).ContainerType = prop.ContainerType := by unfold propGuardAnyStep; split <;> rfl

lemma GuardAny_pres_BaseType (prop : CodegenPropertyF CodegenProperty) :
    (propGuardAnyStep prop).BaseType = prop.BaseType := by unfold propGuardAnyStep; split <;> rfl

lemma GuardAny_pres_AllowableValues (prop : CodegenPropertyF CodegenProperty) :
    (propGuardAnyStep prop).AllowableValues = prop.AllowableValues := by unfold propGuardAnyStep; split <;> rfl

lemma GuardAny_pres_IsPrimitiveType (prop : CodegenPropertyF CodegenProperty) :
    (propGuardAnyStep prop).IsPrimitiveType = prop.IsPrimitiveType := by unfold propGuardAnyStep; split <;> rfl

lemma SyncItems_pres_IsFreeFormObject (prop : CodegenPropertyF CodegenProperty) :
    (propSyncItemsStep prop).IsFreeFormObject = prop.IsFreeFormObject := by
  unfold propSyncItemsStep
  split
  · split <;> rfl
  · rfl

lemma SyncItems_pres_IsModel (prop : CodegenPropertyF CodegenProperty) :
    (propSyncItemsStep prop).IsModel = prop.IsModel := by
  unfold propSyncItemsStep
  split
  · split <;> rfl
  · rfl

lemma SyncItems_pres_IsArray (prop : CodegenPropertyF CodegenProperty) :
    (propSyncItemsStep prop).IsArray = prop.IsArray := by
  unfold propSyncItemsStep
  split
  · split <;> rfl
  · rfl

lemma SyncItems_pres_IsContainer (prop : CodegenPropertyF CodegenProperty) :
    (propSyncItemsStep prop).IsContainer = prop.IsContainer := by
  unfold propSyncItemsStep
  split
  · split <;> rfl
  · rfl

lemma SyncItems_pres_ContainerType (prop : CodegenPropertyF CodegenProperty) :
    (propSyncItemsStep prop).ContainerType = prop.ContainerType := by
  unfold propSyncItemsStep
  split
  · split <;> rfl
  · rfl

lemma SyncItems_pres_BaseType (prop : CodegenPropertyF CodegenProperty) :
    (propSyncItemsStep prop).BaseType = prop.BaseType := by
  unfold propSyncItemsStep
  split
  · split <;> rfl
  · rfl

lemma SyncItems_pres_AllowableValues (prop : CodegenPropertyF CodegenProperty) :
    (propSyncItemsStep prop).AllowableValues = prop.AllowableValues := by
  unfold propSyncItemsStep
  split
  · split <;> rfl
  · rfl

lemma SyncItems_pres_IsPrimitiveType (prop : CodegenPropertyF CodegenProperty) :
    (propSyncItemsStep prop).IsPrimitiveType = prop.IsPrimitiveType := by
  unfold propSyncItemsStep
  split
  · split <;> rfl
  · rfl

lemma EnumTypeSync_pres_IsFreeFormObject (prop : CodegenPropertyF CodegenProperty) :
    (propEnumTypeSyncStep prop).IsFreeFormObject = prop.IsFreeFormObject := by unfold propEnumTypeSyncStep; split <;> rfl

lemma EnumTypeSync_pres_IsModel (prop : CodegenPropertyF CodegenProperty) :
    (propEnumTypeSyncStep prop).IsModel = prop.IsModel := by unfold propEnumTypeSyncStep; split <;> rfl

lemma EnumTypeSync_pres_IsArray (prop : CodegenPropertyF CodegenProperty) :
    (propEnumTypeSyncStep prop).IsArray = prop.IsArray := by unfold propEnumTypeSyncStep; split <;> rfl

lemma EnumTypeSync_pres_IsContainer (prop : CodegenPropertyF CodegenProperty) :
    (propEnumTypeSyncStep prop).IsContainer = prop.IsContainer := by unfold propEnumTypeSyncStep; split <;> rfl

lemma EnumTypeSync_pres_ContainerType (prop : CodegenPropertyF CodegenProperty) :
    (propEnumTypeSyncStep prop).ContainerType = prop.ContainerType := by unfold propEnumTypeSyncStep; split <;> rfl

lemma EnumTypeSync_pres_BaseType (prop : CodegenPropertyF CodegenProperty) :
    (propEnumTypeSyncStep prop).BaseType = prop.BaseType := by unfold propEnumTypeSyncStep; split <;> rfl

lemma EnumTypeSync_pres_AllowableValues (prop : CodegenPropertyF CodegenProperty) :
    (propEnumTypeSyncStep prop).AllowableValues = prop.AllowableValues := by unfold propEnumTypeSyncStep; split <;> rfl

lemma EnumTypeSync_pres_IsPrimitiveType (prop : CodegenPropertyF CodegenProperty) :
    (propEnumTypeSyncStep prop).IsPrimitiveType = prop.IsPrimitiveType := by unfold propEnumTypeSyncStep; split <;> rfl

lemma Default_pres_IsFreeFormObject (s : SchemaF SRef) (prop : CodegenPropertyF CodegenProperty) :
    (propDefaultStep s prop).IsFreeFormObject = prop.IsFreeFormObject := by unfold propDefaultStep; split <;> rfl

lemma Default_pres_IsModel (s : SchemaF SRef) (prop : CodegenPropertyF CodegenProperty) :
    (propDefaultStep s prop).IsModel = prop.IsModel := by unfold propDefaultStep; split <;> rfl

lemma Default_pres_IsArray (s : SchemaF SRef) (prop : CodegenPropertyF CodegenProperty) :
    (propDefaultStep s prop).IsArray = prop.IsArray := by unfold propDefaultStep; split <;> rfl

lemma Default_pres_IsContainer (s : SchemaF SRef) (prop : CodegenPropertyF CodegenProperty) :
    (propDefaultStep s prop).IsContainer = prop.IsContainer := by unfold propDefaultStep; split <;> rfl

lemma Default_pres_ContainerType (s : SchemaF SRef) (prop : CodegenPropertyF CodegenProperty) :
    (propDefaultStep s prop).ContainerType = prop.ContainerType := by unfold propDefaultStep; split <;> rfl

lemma Default_pres_BaseType (s : SchemaF SRef) (prop : CodegenPropertyF CodegenProperty) :
    (propDefaultStep s prop).BaseType = prop.BaseType := by unfold propDefaultStep; split <;> rfl

lemma Default_pres_AllowableValues (s : SchemaF SRef) (prop : CodegenPropertyF CodegenProperty) :
    (propDefaultStep s prop).AllowableValues = prop.AllowableValues := by unfold propDefaultStep; split <;> rfl

lemma Default_pres_IsPrimitiveType (s : SchemaF SRef) (prop : CodegenPropertyF CodegenProperty) :
    (propDefaultStep s prop).IsPrimitiveType = prop.IsPrimitiveType := by unfold propDefaultStep; split <;> rfl

lemma SyncDatatype_pres_DataType (prop : CodegenPropertyF CodegenProperty) :
    (propSyncDatatypeStep prop).DataType = prop.DataType := rfl

lemma Validation_pres_DataType (s : SchemaF SRef) (prop : CodegenPropertyF CodegenProperty) :
    (propValidationStep s prop).DataType = prop.DataType := rfl

lemma HasValidation_pres_DataType (prop : CodegenPropertyF CodegenProperty) :
    (propHasValidationStep prop).DataType = prop.DataType := rfl

lemma SyncItems_pres_DataType (prop : CodegenPropertyF CodegenProperty) :
    (propSyncItemsStep prop).DataType = prop.DataType := by
  unfold propSyncItemsStep
  split
  · split <;> rfl
  · rfl

lemma EnumTypeSync_pres_DataType (prop : CodegenPropertyF CodegenProperty) :
    (propEnumTypeSyncStep prop).DataType = prop.DataType := by unfold propEnumTypeSyncStep; split <;> rfl

lemma Default_pres_DataType (s : SchemaF SRef) (prop : CodegenPropertyF CodegenProperty) :
    (propDefaultStep s prop).DataType = prop.DataType := by unfold propDefaultStep; split <;> rfl

lemma SyncDatatype_pres_Items (prop : CodegenPropertyF CodegenProperty) :
    (propSyncDatatypeStep prop).Items = prop.Items := rfl

lemma Validation_pres_Items (s : SchemaF SRef) (prop : CodegenPropertyF CodegenProperty) :
    (propValidationStep s prop).Items = prop.Items := rfl

lemma HasValidation_pres_Items (prop : CodegenPropertyF CodegenProperty) :
    (propHasValidationStep prop).Items = prop.Items := rfl

lemma GuardAny_pres_Items (prop : CodegenPropertyF CodegenProperty) :
    (propGuardAnyStep prop).Items = prop.Items := by unfold propGuardAnyStep; split <;> rfl

lemma EnumTypeSync_pres_Items (prop : CodegenPropertyF CodegenProperty) :
    (propEnumTypeSyncStep prop).Items = prop.Items := by unfold propEnumTypeSyncStep; split <;> rfl

lemma Default_pres_Items (s : SchemaF SRef) (prop : CodegenPropertyF CodegenProperty) :
    (propDefaultStep s prop).Items = prop.Items := by unfold propDefaultStep; split <;> rfl

lemma propFinalize_DataType (s : SchemaF SRef) (prop : CodegenPropertyF CodegenProperty) :
    (propFinalize s prop).DataType = if prop.DataType = "" then "any" else prop.DataType := by
  show (propSyncDatatypeStep _).DataType = _
  rw [SyncDatatype_pres_DataType, Default_pres_DataType, HasValidation_pres_DataType,
    Validation_pres_DataType, EnumTypeSync_pres_DataType, SyncItems_pres_DataType,
    SyncDatatype_pres_DataType]
  unfold propGuardAnyStep
  split <;> rfl

lemma propFinalize_IsFreeFormObject (s : SchemaF SRef) (prop : CodegenPropertyF CodegenProperty) :
    (propFinalize s prop).IsFreeFormObject = prop.IsFreeFormObject := by
  show (propSyncDatatypeStep _).IsFreeFormObject = _
  rw [SyncDatatype_pres_IsFreeFormObject, Default_pres_IsFreeFormObject, HasValidation_pres_IsFreeFormObject,
    Validation_pres_IsFreeFormObject, EnumTypeSync_pres_IsFreeFormObject, SyncItems_pres_IsFreeFormObject,
    SyncDatatype_pres_IsFreeFormObject, GuardAny_pres_IsFreeFormObject]

lemma propFinalize_IsModel (s : SchemaF SRef) (prop : CodegenPropertyF CodegenProperty) :
    (propFinalize s prop).IsModel = prop.IsModel := by
  show (propSyncDatatypeStep _).IsModel = _
  rw [SyncDatatype_pres_IsModel, Default_pres_IsModel, HasValidation_pres_IsModel,
    Validation_pres_IsModel, EnumTypeSync_pres_IsModel, SyncItems_pres_IsModel,
    SyncDatatype_pres_IsModel, GuardAny_pres_IsModel]

lemma propFinalize_IsArray (s : SchemaF SRef) (prop : CodegenPropertyF CodegenProperty) :
    (propFinalize s prop).IsArray = prop.IsArray := by
  show (propSyncDatatypeStep _).IsArray = _
  rw [SyncDatatype_pres_IsArray, Default_pres_IsArray, HasValidation_pres_IsArray,
    Validation_pres_IsArray, EnumTypeSync_pres_IsArray, SyncItems_pres_IsArray,
    SyncDatatype_pres_IsArray, GuardAny_pres_IsArray]

lemma propFinalize_IsContainer (s : SchemaF SRef) (prop : CodegenPropertyF CodegenProperty) :
    (propFinalize s prop).IsContainer = prop.IsContainer := by
  show (propSyncDatatypeStep _).IsContainer = _
  rw [SyncDatatype_pres_IsContainer, Default_pres_IsContainer, HasValidation_pres_IsContainer,
    Validation_pres_IsContainer, EnumTypeSync_pres_IsContainer, SyncItems_pres_IsContainer,
    SyncDatatype_pres_IsContainer, GuardAny_pres_IsContainer]

lemma propFinalize_ContainerType (s : SchemaF SRef) (prop : CodegenPropertyF CodegenProperty) :
    (propFinalize s prop).ContainerType = prop.ContainerType := by
  show (propSyncDatatypeStep _).ContainerType = _
  rw [SyncDatatype_pres_ContainerType, Default_pres_ContainerType, HasValidation_pres_ContainerType,
    Validation_pres_ContainerType, EnumTypeSync_pres_ContainerType, SyncItems_pres_ContainerType,
    SyncDatatype_pres_ContainerType, GuardAny_pres_ContainerType]

lemma propFinalize_BaseType (s : SchemaF SRef) (prop : CodegenPropertyF CodegenProperty) :
    (propFinalize s prop).BaseType = prop.BaseType := by
  show (propSyncDatatypeStep _).BaseType = _
  rw [SyncDatatype_pres_BaseType, Default_pres_BaseType, HasValidation_pres_BaseType,
    Validation_pres_BaseType, EnumTypeSync_pres_BaseType, SyncItems_pres_BaseType,
    SyncDatatype_pres_BaseType, GuardAny_pres_BaseType]

lemma propFinalize_AllowableValues (s : SchemaF SRef) (prop : CodegenPropertyF CodegenProperty) :
    (propFinalize s prop).AllowableValues = prop.AllowableValues := by
  show (propSyncDatatypeStep _).AllowableValues = _
  rw [SyncDatatype_pres_AllowableValues, Default_pres_AllowableValues, HasValidation_pres_AllowableValues,
    Validation_pres_AllowableValues, EnumTypeSync_pres_AllowableValues, SyncItems_pres_AllowableValues,
    SyncDatatype_pres_AllowableValues, GuardAny_pres_AllowableValues]

lemma propFinalize_IsPrimitiveType (s : SchemaF SRef) (prop : CodegenPropertyF CodegenProperty) :
    (propFinalize s prop).IsPrimitiveType = prop.IsPrimitiveType := by
  show (propSyncDatatypeStep _).IsPrimitiveType = _
  rw [SyncDatatype_pres_IsPrimitiveType, Default_pres_IsPrimitiveType, HasValidation_pres_IsPrimitiveType,
    Validation_pres_IsPrimitiveType, EnumTypeSync_pres_IsPrimitiveType, SyncItems_pres_IsPrimitiveType,
    SyncDatatype_pres_IsPrimitiveType, GuardAny_pres_IsPrimitiveType]

-- per-branch AllowableValues preservation
lemma arrayBranch_pres_AllowableValues (p : Parser) (doc : Doc) (recur) (name : String)
    (s : SchemaF SRef) (prop : CodegenPropertyF CodegenProperty) :
    (p.propArrayBranch doc recur name s prop).AllowableValues = prop.AllowableValues := by
  unfold Parser.propArrayBranch
  dsimp only
  repeat' split
  all_goals rfl

lemma objectBranch_pres_AllowableValues (p : Parser) (doc : Doc) (recur)
    (s : SchemaF SRef) (prop : CodegenPropertyF CodegenProperty) :
    (p.propObjectBranch doc recur s prop).AllowableValues = prop.AllowableValues := by
  unfold Parser.propObjectBranch
  dsimp only
  repeat' split
  all_goals rfl

lemma stringBranch_pres_AllowableValues (p : Parser)
    (s : SchemaF SRef) (prop : CodegenPropertyF CodegenProperty) :
    (p.propStringBranch s prop).AllowableValues = prop.AllowableValues := by
  unfold Parser.propStringBranch
  dsimp only
  repeat' split
  all_goals rfl

lemma otherBranch_pres_AllowableValues (p : Parser) (s : SchemaF SRef) (schemaType : String)
    (prop : CodegenPropertyF CodegenProperty) :
    (p.propOtherBranch s schemaType prop).AllowableValues = prop.AllowableValues := by
  unfold Parser.propOtherBranch
  dsimp only
  repeat' split
  all_goals rfl

lemma typeSwitch_pres_AllowableValues (p : Parser) (doc : Doc) (recur) (name : String)
    (s : SchemaF SRef) (schemaType : String) (prop : CodegenPropertyF CodegenProperty) :
    (p.propTypeSwitch doc recur name s schemaType prop).AllowableValues =
      prop.AllowableValues := by
  unfold Parser.propTypeSwitch
  repeat' split
  · exact arrayBranch_pres_AllowableValues ..
  · exact objectBranch_pres_AllowableValues ..
  · exact stringBranch_pres_AllowableValues ..
  · unfold propIntegerBranch; dsimp only; repeat' split
    all_goals rfl
  · unfold propNumberBranch; dsimp only; repeat' split
    all_goals rfl
  · rfl
  · exact otherBranch_pres_AllowableValues ..

lemma schemaToProperty_succ (p : Parser) (doc : Doc) (fuel : Nat) (name : String)
    (schema : Schema) (required : Bool) :
    p.schemaToProperty doc (fuel + 1) name schema required =
      propFinalize schema.f
        (p.propTypeSwitch doc (fun nm sch req => p.schemaToProperty doc fuel nm sch req)
          name schema.f (schema.f.type_.headD "")
          (p.propEnumStep name schema.f
            ({ p.propBase name schema.f required with
                OpenApiType := schema.f.type_.headD "" }))) := rfl

lemma typeSwitch_object_props (p : Parser) (doc : Doc) (recur) (name : String)
    (s : SchemaF SRef) (prop : CodegenPropertyF CodegenProperty)
    (hprops : s.properties.isEmpty = false) :
    p.propTypeSwitch doc recur name s "object" prop =
      { prop with
        DataType := "any"
        BaseType := "any"
        IsPrimitiveType := true
        IsFreeFormObject := true } := by
  unfold Parser.propTypeSwitch Parser.propObjectBranch
  rw [if_neg (by decide), if_pos rfl, if_pos hprops]

lemma typeSwitch_object_free (p : Parser) (doc : Doc) (recur) (name : String)
    (s : SchemaF SRef) (prop : CodegenPropertyF CodegenProperty)
    (hprops : s.properties.isEmpty = true) (hadd : s.additionalHas ≠ some true) :
    p.propTypeSwitch doc recur name s "object" prop =
      { prop with IsFreeFormObject := true, DataType := "any", IsPrimitiveType := true } := by
  unfold Parser.propTypeSwitch Parser.propObjectBranch
  rw [if_neg (by decide), if_pos rfl, if_neg (by simp [hprops]), if_neg hadd]

lemma typeSwitch_array_ref (p : Parser) (doc : Doc) (recur) (name : String)
    (s : SchemaF SRef) (prop : CodegenPropertyF CodegenProperty)
    (r : String) (v : Option Schema) (hitems : s.items = some (r, v)) (href : r ≠ "") :
    p.propTypeSwitch doc recur name s "array" prop =
      { prop with
        IsArray := true
        IsContainer := true
        ContainerType := "array"
        Items := some (CodegenProperty.mk
          { DataType := p.toModelName (extractRefName r)
            Datatype := p.toModelName (extractRefName r)
            IsModel := true })
        DataType := "Array<" ++ p.toModelName (extractRefName r) ++ ">"
        Datatype := "Array<" ++ p.toModelName (extractRefName r) ++ ">"
        BaseType := p.toModelName (extractRefName r)
        ComplexType := p.toModelName (extractRefName r)
        UniqueItems := s.uniqueItems } := by
  unfold Parser.propTypeSwitch Parser.propArrayBranch
  rw [if_pos rfl]
  dsimp only
  rw [hitems]
  dsimp only
  rw [if_pos (by simpa using href)]
  rfl

-- additional small preservation lemmas
lemma enumStep_pres_IsModel (p : Parser) (name : String) (s : SchemaF SRef)
    (prop : CodegenPropertyF CodegenProperty) :
    (p.propEnumStep name s prop).IsModel = prop.IsModel := by
  unfold Parser.propEnumStep; split <;> rfl

lemma syncItems_on_nameOnly (prop : CodegenPropertyF CodegenProperty) (mn : String)
    (h : prop.Items = some (CodegenProperty.mk
      { DataType := mn, Datatype := mn, IsModel := true })) :
    (propSyncItemsStep prop).Items = prop.Items := by
  unfold propSyncItemsStep
  rw [h]
  dsimp only
  split
  · rfl
  · exact h

lemma arrayWrap_ne_empty (mn : String) : ("Array<" ++ mn ++ ">") ≠ "" := by
  intro h
  have h2 := congrArg String.toList h
  simp at h2

/-- C7: the resolved type string is never empty. For every schema node, name
and required flag, `schemaToProperty` returns a Property whose `DataType` is
nonempty (at exhausted fuel and for unclassifiable schemas it is the explicit
"any"), and a bare `{"type":"object"}` schema with no properties and no
additionalProperties resolves to the free-form/any category. -/
theorem C7_resolved_type_never_empty (p : Parser) (doc : Doc) (fuel : Nat)
    (name : String) (schema : Schema) (required : Bool) :
    (p.schemaToProperty doc fuel name schema required).DataType ≠ "" ∧
    (schema.f.type_.headD "" = "object" → schema.f.properties = [] →
      schema.f.additionalHas = none → 0 < fuel →
      (p.schemaToProperty doc fuel name schema required).IsFreeFormObject = true ∧
      (p.schemaToProperty doc fuel name schema required).DataType = "any") := by
  constructor
  · cases fuel with
    | zero =>
      show ¬ ("any" : String) = ""
      decide
    | succ n =>
      rw [schemaToProperty_succ]
      show (propFinalize _ _).DataType ≠ ""
      rw [propFinalize_DataType]
      split
      · decide
      · assumption
  · intro hty hprops hadd hpos
    cases fuel with
    | zero => omega
    | succ n =>
      rw [schemaToProperty_succ, hty,
        typeSwitch_object_free p doc _ name schema.f _ (by simp [hprops]) (by simp [hadd])]
      constructor
      · rw [propFinalize_IsFreeFormObject]
      · rw [propFinalize_DataType]
        rfl

lemma isEmpty_false_of_ne_nil {α : Type} (l : List α) (h : l ≠ []) : l.isEmpty = false := by
  cases l with
  | nil => exact absurd rfl h
  | cons a t => rfl

/-- C4 (amended): resolution of a schema graph with a direct cycle
terminates, and the result of resolving an object schema that carries
properties is independent of the document and of the remaining fuel — the
resolver never follows the cycle.  However, contrary to the claim's second
half, the enclosing object property degrades to the free-form "any" type
(`IsModel = false`), not to a named model reference: see the counterexample
theorem for the concrete `Node { next: Node }` graph. -/
theorem C4_cycle_terminates_as_any (p : Parser) (doc doc2 : Doc) (fuel fuel2 : Nat)
    (name : String) (schema : Schema) (required : Bool)
    (hty : schema.f.type_.headD "" = "object")
    (hprops : schema.f.properties ≠ []) :
    p.schemaToProperty doc (fuel + 1) name schema required =
      p.schemaToProperty doc2 (fuel2 + 1) name schema required ∧
    (p.schemaToProperty doc (fuel + 1) name schema required).DataType = "any" ∧
    (p.schemaToProperty doc (fuel + 1) name schema required).IsModel = false := by
  have he := isEmpty_false_of_ne_nil _ hprops
  refine ⟨?_, ?_, ?_⟩
  · rw [schemaToProperty_succ, schemaToProperty_succ, hty,
      typeSwitch_object_props p doc _ name schema.f _ he,
      typeSwitch_object_props p doc2 _ name schema.f _ he]
  · rw [schemaToProperty_succ, hty, typeSwitch_object_props p doc _ name schema.f _ he,
      propFinalize_DataType]
    rfl
  · rw [schemaToProperty_succ, hty, typeSwitch_object_props p doc _ name schema.f _ he,
      propFinalize_IsModel]
    show (p.propEnumStep name schema.f _).IsModel = false
    rw [enumStep_pres_IsModel]
    rfl

/-- C6: an array schema whose items is a named reference resolves to a
Property with the array container kind (`IsArray`, `IsContainer`,
`ContainerType = "array"`), base type the referenced model name, data type
`Array<name>`, and an `Items` node built from the name only; the referenced
model's body is never consulted (the result is independent of the document
and of the remaining fuel). -/
theorem C6_array_of_ref_name_only (p : Parser) (doc doc2 : Doc) (fuel fuel2 : Nat)
    (name : String) (schema : Schema) (required : Bool) (r : String) (v : Option Schema)
    (hty : schema.f.type_.headD "" = "array")
    (hitems : schema.f.items = some (r, v))
    (href : r ≠ "") :
    (p.schemaToProperty doc (fuel + 1) name schema required).IsArray = true ∧
    (p.schemaToProperty doc (fuel + 1) name schema required).IsContainer = true ∧
    (p.schemaToProperty doc (fuel + 1) name schema required).ContainerType = "array" ∧
    (p.schemaToProperty doc (fuel + 1) name schema required).BaseType =
      p.toModelName (extractRefName r) ∧
    (p.schemaToProperty doc (fuel + 1) name schema required).DataType =
      "Array<" ++ p.toModelName (extractRefName r) ++ ">" ∧
    (p.schemaToProperty doc (fuel + 1) name schema required).Items =
      some (CodegenProperty.mk
        { DataType := p.toModelName (extractRefName r)
          Datatype := p.toModelName (extractRefName r)
          IsModel := true }) ∧
    p.schemaToProperty doc (fuel + 1) name schema required =
      p.schemaToProperty doc2 (fuel2 + 1) name schema required := by
  refine ⟨?_, ?_, ?_, ?_, ?_, ?_, ?_⟩
  · rw [schemaToProperty_succ, hty, typeSwitch_array_ref p doc _ name schema.f _ r v hitems href,
      propFinalize_IsArray]
  · rw [schemaToProperty_succ, hty, typeSwitch_array_ref p doc _ name schema.f _ r v hitems href,
      propFinalize_IsContainer]
  · rw [schemaToProperty_succ, hty, typeSwitch_array_ref p doc _ name schema.f _ r v hitems href,
      propFinalize_ContainerType]
  · rw [schemaToProperty_succ, hty, typeSwitch_array_ref p doc _ name schema.f _ r v hitems href,
      propFinalize_BaseType]
  · rw [schemaToProperty_succ, hty, typeSwitch_array_ref p doc _ name schema.f _ r v hitems href,
      propFinalize_DataType]
    rw [if_neg (arrayWrap_ne_empty _)]
  · rw [schemaToProperty_succ, hty, typeSwitch_array_ref p doc _ name schema.f _ r v hitems href]
    show (propSyncDatatypeStep _).Items = _
    rw [SyncDatatype_pres_Items, Default_pres_Items, HasValidation_pres_Items,
      Validation_pres_Items, EnumTypeSync_pres_Items,
      syncItems_on_nameOnly _ (p.toModelName (extractRefName r)) (by
        rw [SyncDatatype_pres_Items, GuardAny_pres_Items]),
      SyncDatatype_pres_Items, GuardAny_pres_Items]
  · rw [schemaToProperty_succ, schemaToProperty_succ, hty,
      typeSwitch_array_ref p doc _ name schema.f _ r v hitems href,
      typeSwitch_array_ref p doc2 _ name schema.f _ r v hitems href]

lemma allOfStep_AllOf (p : Parser) (doc : Doc) (fuel : Nat) (m : CodegenModel) (r : SRef) :
    (p.allOfStep doc fuel m r).AllOf =
      m.AllOf ++ (if r.ref ≠ "" then [extractRefName r.ref] else []) := by
  unfold Parser.allOfStep
  by_cases h : r.ref ≠ ""
  · rw [if_pos h, if_pos h]
    dsimp only
    split <;> rfl
  · rw [if_neg h, if_neg h, List.append_nil]
    cases hv : SRef.value doc r with
    | none => simp only [hv]
    | some v =>
      simp only [hv]
      by_cases hp : ¬ v.f.properties.isEmpty
      · rw [if_pos hp]
      · rw [if_neg hp]

lemma allOfStep_Vars (p : Parser) (doc : Doc) (fuel : Nat) (m : CodegenModel) (r : SRef) :
    (p.allOfStep doc fuel m r).Vars = m.Vars ++ p.allOfInlineVars doc fuel r := by
  unfold Parser.allOfStep Parser.allOfInlineVars
  by_cases h : r.ref ≠ ""
  · rw [if_pos h, if_pos h]
    dsimp only
    rw [List.append_nil]
    split <;> rfl
  · rw [if_neg h, if_neg h]
    cases hv : SRef.value doc r with
    | none => simp only [hv]; rw [List.append_nil]
    | some v =>
      simp only [hv]
      by_cases hp : ¬ v.f.properties.isEmpty
      · rw [if_pos hp, if_pos hp]
      · rw [if_neg hp, if_neg hp, List.append_nil]

lemma allOfStep_Parent (p : Parser) (doc : Doc) (fuel : Nat) (m : CodegenModel) (r : SRef) :
    (p.allOfStep doc fuel m r).Parent =
      if r.ref ≠ "" ∧ m.Parent = "" then p.toModelName (extractRefName r.ref)
      else m.Parent := by
  unfold Parser.allOfStep
  by_cases h : r.ref ≠ ""
  · rw [if_pos h]
    dsimp only
    by_cases hp : m.Parent = ""
    · rw [if_pos hp, if_pos (And.intro h hp)]
    · rw [if_neg hp, if_neg (fun hc => hp hc.2)]
  · rw [if_neg h, if_neg (fun hc => h hc.1)]
    cases hv : SRef.value doc r with
    | none => simp only [hv]
    | some v =>
      simp only [hv]
      by_cases hp : ¬ v.f.properties.isEmpty
      · rw [if_pos hp]
      · rw [if_neg hp]

lemma allOfFold_AllOf (p : Parser) (doc : Doc) (fuel : Nat) :
    ∀ (branches : List SRef) (m : CodegenModel),
      ((branches.foldl (p.allOfStep doc fuel) m).AllOf) = m.AllOf ++ allOfRefNames branches
  | [], m => by simp [allOfRefNames]
  | r :: bs, m => by
    rw [List.foldl_cons, allOfFold_AllOf p doc fuel bs, allOfStep_AllOf]
    unfold allOfRefNames
    by_cases h : r.ref ≠ ""
    · simp only [if_pos h, List.filterMap_cons, if_pos h, List.append_assoc,
        List.singleton_append]
    · simp only [if_neg h, List.filterMap_cons, if_neg h, List.append_nil]

lemma allOfFold_Vars (p : Parser) (doc : Doc) (fuel : Nat) :
    ∀ (branches : List SRef) (m : CodegenModel),
      ((branches.foldl (p.allOfStep doc fuel) m).Vars) =
        m.Vars ++ branches.flatMap (p.allOfInlineVars doc fuel)
  | [], m => by simp
  | r :: bs, m => by
    rw [List.foldl_cons, allOfFold_Vars p doc fuel bs, allOfStep_Vars]
    simp

lemma allOfParent_cons (p : Parser) (r : SRef) (bs : List SRef) :
    p.allOfParent (r :: bs) =
      if r.ref ≠ "" ∧ p.toModelName (extractRefName r.ref) ≠ "" then
        p.toModelName (extractRefName r.ref)
      else p.allOfParent bs := rfl

lemma allOfFold_Parent (p : Parser) (doc : Doc) (fuel : Nat) :
    ∀ (branches : List SRef) (m : CodegenModel),
      ((branches.foldl (p.allOfStep doc fuel) m).Parent) =
        if m.Parent = "" then p.allOfParent branches else m.Parent
  | [], m => by
    by_cases h : m.Parent = "" <;> simp [Parser.allOfParent, h]
  | r :: bs, m => by
    rw [List.foldl_cons, allOfFold_Parent p doc fuel bs, allOfStep_Parent]
    by_cases h : r.ref ≠ ""
    · by_cases hp : m.Parent = ""
      · rw [if_pos (And.intro h hp), if_pos hp, allOfParent_cons]
        by_cases hmn : p.toModelName (extractRefName r.ref) ≠ ""
        · rw [if_neg hmn, if_pos (And.intro h hmn)]
        · push_neg at hmn
          rw [if_pos hmn,
            if_neg (c := r.ref ≠ "" ∧ p.toModelName (extractRefName r.ref) ≠ "")
              (fun hc => hc.2 hmn)]
      · rw [if_neg (c := r.ref ≠ "" ∧ m.Parent = "") (fun hc => hp hc.2),
          if_neg hp, if_neg hp]
    · rw [if_neg (c := r.ref ≠ "" ∧ m.Parent = "") (fun hc => h hc.1),
        allOfParent_cons,
        if_neg (c := r.ref ≠ "" ∧ p.toModelName (extractRefName r.ref) ≠ "")
          (fun hc => h hc.1)]

set_option maxHeartbeats 1000000 in
lemma schemaToModel_pureAllOf (p : Parser) (doc : Doc) (fuel : Nat) (name : String)
    (b : SRef) (bs : List SRef) :
    p.schemaToModel doc fuel name (Schema.mk { allOf := b :: bs }) =
      (let m := (b :: bs).foldl (p.allOfStep doc fuel) (p.modelSkeleton name)
       let m := { m with Imports := p.collectImports m }
       { m with
          Pattern := ""
          Minimum := ""
          Maximum := ""
          MinLength := none
          MaxLength := none
          MinItems := none
          MaxItems := none
          UniqueItems := false
          ExclusiveMinimum := false
          ExclusiveMaximum := false }) := rfl

/-- C5: for a named schema that is a pure `allOf`, the model's single
`Parent` is the model name of the first referenced branch (with a nonempty
model name), every referenced branch name is recorded in order in `AllOf`,
and the properties of every inline branch carrying properties are spliced in
order into the model's own `Vars`; concretely,
`allOf [$ref Animal, {properties: {age: integer}}]` yields `Parent = "Animal"`,
`AllOf = ["Animal"]` and a single Vars entry named `age`. -/
theorem C5_allOf_parent_refs_and_inline_vars (p : Parser) (doc : Doc) (fuel : Nat)
    (name : String) (b : SRef) (bs : List SRef) :
    ((p.schemaToModel doc fuel name (Schema.mk { allOf := b :: bs })).Parent
        = p.allOfParent (b :: bs) ∧
      (p.schemaToModel doc fuel name (Schema.mk { allOf := b :: bs })).AllOf
        = allOfRefNames (b :: bs) ∧
      (p.schemaToModel doc fuel name (Schema.mk { allOf := b :: bs })).Vars
        = (b :: bs).flatMap (p.allOfInlineVars doc fuel)) ∧
    ((NewParser.schemaToModel animalDoc 5 "Dog" dogSchema).Parent = "Animal" ∧
      (NewParser.schemaToModel animalDoc 5 "Dog" dogSchema).AllOf = ["Animal"] ∧
      (NewParser.schemaToModel animalDoc 5 "Dog" dogSchema).Vars.map (fun v => v.Name)
        = ["age"]) := by
  refine ⟨⟨?_, ?_, ?_⟩, ⟨rfl, rfl, rfl⟩⟩
  · rw [schemaToModel_pureAllOf]
    show ((b :: bs).foldl (p.allOfStep doc fuel) (p.modelSkeleton name)).Parent = _
    rw [allOfFold_Parent]
    exact if_pos rfl
  · rw [schemaToModel_pureAllOf]
    show ((b :: bs).foldl (p.allOfStep doc fuel) (p.modelSkeleton name)).AllOf = _
    rw [allOfFold_AllOf]
    rfl
  · rw [schemaToModel_pureAllOf]
    show ((b :: bs).foldl (p.allOfStep doc fuel) (p.modelSkeleton name)).Vars = _
    rw [allOfFold_Vars]
    rfl

lemma replaceChar_single (c d : Char) : ∀ l : List Char,
    ((l.map fun x => if x = c then [d] else [x]).flatten) =
      l.map fun x => if x = c then d else x
  | [] => rfl
  | x :: xs => by
    simp only [List.map_cons, List.flatten_cons, replaceChar_single c d xs]
    by_cases hx : x = c
    · rw [if_pos hx, if_pos hx]
      rfl
    · rw [if_neg hx, if_neg hx]
      rfl

lemma enumFrom_filter_valid : ∀ (l : List Char) (n : Nat), 0 < n →
    (((List.enumFrom n l).filter fun ic =>
        isEnumLetter ic.2 || (decide (0 < ic.1) && isDigitChar ic.2)).map (·.2)) =
      l.filter fun c => isEnumLetter c || isDigitChar c
  | [], n, _ => rfl
  | c :: rest, n, hn => by
    have hd : decide (0 < n) = true := decide_eq_true hn
    simp only [List.enumFrom_cons, List.filter_cons, hd, Bool.true_and]
    cases hke : isEnumLetter c || isDigitChar c with
    | true =>
      simp [hke, enumFrom_filter_valid rest (n + 1) (Nat.succ_pos n)]
    | false =>
      simp [hke, enumFrom_filter_valid rest (n + 1) (Nat.succ_pos n)]

lemma enum_filter_valid (l : List Char)
    (hhd : ∀ c rest, l = c :: rest → isDigitChar c = false) :
    ((l.enum.filter fun ic =>
        isEnumLetter ic.2 || (decide (0 < ic.1) && isDigitChar ic.2)).map (·.2)) =
      l.filter fun c => isEnumLetter c || isDigitChar c := by
  cases l with
  | nil => rfl
  | cons c rest =>
    have hc : isDigitChar c = false := hhd c rest rfl
    show (((List.enumFrom 0 (c :: rest)).filter _).map _) = _
    simp only [List.enumFrom_cons, List.filter_cons,
      (show decide (0 < 0) = false from rfl), Bool.false_and, Bool.or_false, hc]
    cases hke : isEnumLetter c with
    | true =>
      simp [hke, enumFrom_filter_valid rest 1 Nat.one_pos]
    | false =>
      simp [hke, enumFrom_filter_valid rest 1 Nat.one_pos]

lemma replaceChar_underscore (c : Char) (s : String) :
    replaceChar c "_" s = String.mk (s.toList.map fun x => if x = c then '_' else x) := by
  unfold replaceChar
  simp only [show ("_" : String).toList = ['_'] from rfl]
  exact congrArg String.mk (replaceChar_single c '_' s.toList)

lemma threeReplace_eq_map (u : String) :
    replaceChar '.' "_" (replaceChar '-' "_" (replaceChar ' ' "_" u)) =
      String.mk (u.toList.map enumPunctToUnderscore) := by
  rw [replaceChar_underscore, replaceChar_underscore, replaceChar_underscore]
  have hmk : ∀ l : List Char, (String.mk l).toList = l := fun _ => rfl
  simp only [hmk, List.map_map]
  congr 1
  apply List.map_congr_left
  intro x _
  by_cases h1x : x = ' '
  · subst h1x
    decide
  · by_cases h2x : x = '-'
    · subst h2x
      decide
    · by_cases h3x : x = '.'
      · subst h3x
        decide
      · simp [Function.comp, enumPunctToUnderscore, h1x, h2x, h3x]

lemma toEnumVarName_eq_spec (v : String) : toEnumVarName v = toEnumVarNameSpec v := by
  unfold toEnumVarName toEnumVarNameSpec
  dsimp only
  rw [threeReplace_eq_map]
  cases hl : (replaceChar '+' "PLUS"
      (String.mk ((strToUpper v).toList.map enumPunctToUnderscore))).toList with
  | nil =>
    dsimp only
    rw [hl]
    rfl
  | cons c rest =>
    dsimp only
    by_cases hdc : isDigitChar c = true
    · rw [if_pos hdc]
      have hfl : ("_" ++ replaceChar '+' "PLUS"
          (String.mk ((strToUpper v).toList.map enumPunctToUnderscore))).toList =
          '_' :: c :: rest := by
        have hsplit : ("_" ++ replaceChar '+' "PLUS"
            (String.mk ((strToUpper v).toList.map enumPunctToUnderscore))).toList =
            ("_" : String).toList ++ (replaceChar '+' "PLUS"
              (String.mk ((strToUpper v).toList.map enumPunctToUnderscore))).toList := rfl
        rw [hsplit, hl]
        rfl
      rw [hfl, enum_filter_valid ('_' :: c :: rest) (by
        intro a as ha
        cases ha
        rfl)]
    · rw [if_neg hdc, hl,
        enum_filter_valid (c :: rest) (by
          intro a as ha
          cases ha
          simpa using hdc)]

lemma enumStep_AllowableValues (p : Parser) (name : String) (s : SchemaF SRef)
    (prop : CodegenPropertyF CodegenProperty) (h : s.enum ≠ []) :
    (p.propEnumStep name s prop).AllowableValues =
      some ({ values := s.enum
              enumVars := s.enum.map fun v =>
                { name := toEnumVarName v, value := escapeSingleQuotes v } } :
        AllowableValues) := by
  unfold Parser.propEnumStep
  rw [if_neg h]

/-- C9: enum member names follow the spec's sanitizer description —
`toEnumVarNameSpec` is written from the spec's words (uppercase; one pass
mapping space/dash/dot to underscore; `+` to `PLUS`; an underscore prefix for
a leading digit; strip remaining invalid characters; fallback `"VALUE"`) and
agrees with the source's `toEnumVarName` on every value; through
`schemaToProperty` the enum values `vs` produce `AllowableValues` with
exactly those member names and single-quote-escaped literal texts, and
`["A","B","+1"]` yields member names `A`, `B`, `PLUS1`. -/
theorem C9_enum_member_names (vs : List String) (hvs : vs ≠ []) :
    (∀ v, toEnumVarName v = toEnumVarNameSpec v) ∧
    (∀ (p : Parser) (doc : Doc) (fuel : Nat) (name : String) (required : Bool),
      (p.schemaToProperty doc (fuel + 1) name
          (Schema.mk { type_ := ["string"], enum := vs }) required).AllowableValues =
        some ({ values := vs
                enumVars := vs.map fun v =>
                  { name := toEnumVarNameSpec v, value := escapeSingleQuotes v } } :
          AllowableValues)) ∧
    (NewParser.schemaToProperty [] 1 "status"
        (Schema.mk { type_ := ["string"], enum := ["A", "B", "+1"] }) false).AllowableValues =
      some ({ values := ["A", "B", "+1"]
              enumVars := [
                { name := "A", value := "A" },
                { name := "B", value := "B" },
                { name := "PLUS1", value := "+1" }] } : AllowableValues) := by
  refine ⟨toEnumVarName_eq_spec, ?_, by rfl⟩
  intro p doc fuel name required
  rw [schemaToProperty_succ, propFinalize_AllowableValues, typeSwitch_pres_AllowableValues,
    enumStep_AllowableValues p name _ _ hvs]
  have hmap : vs.map (fun v =>
        ({ name := toEnumVarName v, value := escapeSingleQuotes v } : EnumVar)) =
      vs.map fun v => { name := toEnumVarNameSpec v, value := escapeSingleQuotes v } :=
    List.map_congr_left fun v _ => by rw [toEnumVarName_eq_spec]
  show some ({ values := vs
               enumVars := vs.map fun v =>
                 { name := toEnumVarName v, value := escapeSingleQuotes v } } :
    AllowableValues) = _
  rw [hmap]

set_option maxHeartbeats 1000000 in
lemma operationToCodegen_phases (p : Parser) (doc : Doc) (fuel : Nat)
    (path method : String) (op : Operation) (pathParams : List (Option Param)) :
    p.operationToCodegen doc fuel path method op pathParams =
      p.opImportsPhase (opRebuildPhase (opDedupPhase (opSecurityPhase op.security
        (opConsumesPhase op.requestBody (p.opResponsesPhase doc fuel op.responses
          (p.opRequestBodyPhase doc op.requestBody
            (op.parameters.foldl (p.operationParamStep doc fuel)
              (pathParams.foldl (p.pathItemParamStep doc fuel)
                (opHeader path method op))))))))) := rfl

lemma foldl_proj_pres {α β γ : Type} (f : β → α → β) (proj : β → γ)
    (h : ∀ b a, proj (f b a) = proj b) :
    ∀ (l : List α) (b : β), proj (l.foldl f b) = proj b
  | [], _ => rfl
  | a :: rest, b => by
    rw [List.foldl_cons, foldl_proj_pres f proj h rest (f b a), h]

lemma opHeader_AllParams (path method : String) (op : Operation) :
    (opHeader path method op).AllParams = [] := by
  unfold opHeader
  dsimp only
  repeat' split
  all_goals rfl

lemma pathItemParamStep_AllParams (p : Parser) (doc : Doc) (fuel : Nat)
    (co : CodegenOperation) (pr : Option Param) :
    (p.pathItemParamStep doc fuel co pr).AllParams =
      co.AllParams ++ p.resolvedParams doc fuel [pr] := by
  unfold Parser.pathItemParamStep Parser.resolvedParams
  cases pr with
  | none => simp
  | some prm => simp [List.filterMap_cons]

lemma operationParamStep_AllParams (p : Parser) (doc : Doc) (fuel : Nat)
    (co : CodegenOperation) (pr : Option Param) :
    (p.operationParamStep doc fuel co pr).AllParams =
      co.AllParams ++ p.resolvedParams doc fuel [pr] := by
  unfold Parser.operationParamStep Parser.resolvedParams
  cases pr with
  | none => simp
  | some prm =>
    simp only [List.filterMap_cons, Option.map_some', List.filterMap_nil]
    repeat' split
    all_goals rfl

lemma resolvedParams_cons (p : Parser) (doc : Doc) (fuel : Nat)
    (pr : Option Param) (rest : List (Option Param)) :
    p.resolvedParams doc fuel (pr :: rest) =
      p.resolvedParams doc fuel [pr] ++ p.resolvedParams doc fuel rest := by
  unfold Parser.resolvedParams
  cases pr <;> simp [List.filterMap_cons]

lemma paramFold_AllParams (p : Parser) (doc : Doc) (fuel : Nat)
    (step : CodegenOperation → Option Param → CodegenOperation)
    (hstep : ∀ co pr, (step co pr).AllParams = co.AllParams ++ p.resolvedParams doc fuel [pr]) :
    ∀ (prs : List (Option Param)) (co : CodegenOperation),
      (prs.foldl step co).AllParams = co.AllParams ++ p.resolvedParams doc fuel prs
  | [], co => by simp [Parser.resolvedParams]
  | pr :: rest, co => by
    rw [List.foldl_cons, paramFold_AllParams p doc fuel step hstep rest, hstep,
      List.append_assoc, ← resolvedParams_cons]

lemma responseStep_pres_AllParams (p : Parser) (doc : Doc) (fuel : Nat)
    (co : CodegenOperation) (entry : String × Option ResponseObj) :
    (p.responseStep doc fuel co entry).AllParams = co.AllParams := by
  unfold Parser.responseStep
  dsimp only
  repeat' split
  all_goals rfl

lemma securityEntryStep_pres_AllParams (co : CodegenOperation)
    (nameScopes : String × List String) :
    (securityEntryStep co nameScopes).AllParams = co.AllParams := rfl

lemma opResponsesPhase_pres_AllParams (p : Parser) (doc : Doc) (fuel : Nat)
    (resps? : Option (List (String × Option ResponseObj))) (co : CodegenOperation) :
    (p.opResponsesPhase doc fuel resps? co).AllParams = co.AllParams := by
  unfold Parser.opResponsesPhase
  cases resps? with
  | none => rfl
  | some resps =>
    exact foldl_proj_pres _ _ (responseStep_pres_AllParams p doc fuel) resps co

lemma opConsumesPhase_pres_AllParams (body? : Option RequestBodyObj)
    (co : CodegenOperation) :
    (opConsumesPhase body? co).AllParams = co.AllParams := by
  unfold opConsumesPhase
  cases body? <;> rfl

lemma opSecurityPhase_pres_AllParams (sec? : Option (List (List (String × List String))))
    (co : CodegenOperation) :
    (opSecurityPhase sec? co).AllParams = co.AllParams := by
  unfold opSecurityPhase
  cases sec? with
  | none => rfl
  | some secReqs =>
    show (secReqs.foldl _ co).AllParams = co.AllParams
    exact foldl_proj_pres _ _
      (fun b a => foldl_proj_pres _ _ (fun b2 a2 => securityEntryStep_pres_AllParams b2 a2) a b)
      secReqs co

lemma opRebuildPhase_pres_AllParams (co : CodegenOperation) :
    (opRebuildPhase co).AllParams = co.AllParams := by
  unfold opRebuildPhase
  dsimp only
  have hs : ∀ (b : CodegenOperation) (a : CodegenParameter),
      (requiredOptionalRebuild b a).AllParams = b.AllParams := by
    intro b a
    unfold requiredOptionalRebuild
    split <;> rfl
  rw [foldl_proj_pres _ _ hs]

lemma opImportsPhase_pres_AllParams (p : Parser) (co : CodegenOperation) :
    (p.opImportsPhase co).AllParams = co.AllParams := rfl

lemma opDedupPhase_AllParams (co : CodegenOperation) :
    (opDedupPhase co).AllParams = deduplicateParams co.AllParams := rfl

lemma opRequestBodyPhase_none (p : Parser) (doc : Doc) (co : CodegenOperation) :
    p.opRequestBodyPhase doc none co = co := rfl

lemma operationToCodegen_AllParams_noBody (p : Parser) (doc : Doc) (fuel : Nat)
    (path method : String) (op : Operation) (pathParams : List (Option Param))
    (hrb : op.requestBody = none) :
    (p.operationToCodegen doc fuel path method op pathParams).AllParams =
      deduplicateParams (p.resolvedParams doc fuel pathParams ++
        p.resolvedParams doc fuel op.parameters) := by
  rw [operationToCodegen_phases, opImportsPhase_pres_AllParams,
    opRebuildPhase_pres_AllParams, opDedupPhase_AllParams,
    opSecurityPhase_pres_AllParams, opConsumesPhase_pres_AllParams,
    opResponsesPhase_pres_AllParams, hrb, opRequestBodyPhase_none]
  rw [paramFold_AllParams p doc fuel _ (operationParamStep_AllParams p doc fuel),
    paramFold_AllParams p doc fuel _ (pathItemParamStep_AllParams p doc fuel),
    opHeader_AllParams]
  rw [List.nil_append]

lemma parameterToCodegen_ParamName (p : Parser) (doc : Doc) (fuel : Nat) (prm : Param) :
    (p.parameterToCodegen doc fuel prm).ParamName = p.toVarName prm.name := by
  unfold Parser.parameterToCodegen
  dsimp only
  repeat' split
  all_goals rfl

lemma dedupParamsGo_cons (seen : List (String × Nat)) (result : List CodegenParameter)
    (param : CodegenParameter) (rest : List CodegenParameter) :
    dedupParamsGo seen result (param :: rest) =
      match seen.find? (fun e => e.1 == param.ParamName) with
      | some entry => dedupParamsGo seen (result.set entry.2 param) rest
      | none =>
        dedupParamsGo (seen ++ [(param.ParamName, result.length)]) (result ++ [param]) rest :=
  rfl

lemma dedup_three (a b c : CodegenParameter) (heq : b.ParamName = c.ParamName)
    (hne : a.ParamName ≠ b.ParamName) :
    deduplicateParams [a, b, c] = [a, c] := by
  have hne2 : a.ParamName ≠ c.ParamName := heq ▸ hne
  unfold deduplicateParams
  rw [if_neg (by simp)]
  show dedupParamsGo [(a.ParamName, 0)] [a] [b, c] = [a, c]
  rw [dedupParamsGo_cons, List.find?_cons_of_neg _ (by simp [hne])]
  show dedupParamsGo [(a.ParamName, 0), (b.ParamName, 1)] [a, b] [c] = [a, c]
  rw [dedupParamsGo_cons, List.find?_cons_of_neg _ (by simp [hne2]),
    List.find?_cons_of_pos _ (by simp [heq])]
  rfl

/-- C3: parameter deduplication keys by normalized parameter name only,
ignoring location.  With path-item-level parameters `prm0, prm1` and an
operation-level parameter `prm2` whose normalized name equals `prm1`'s, the
final `AllParams` holds exactly one entry with that name: the operation-level
parameter, sitting at the path-item-level parameter's earlier position. -/
theorem C3_param_dedup (p : Parser) (doc : Doc) (fuel : Nat) (path method : String)
    (op : Operation) (prm0 prm1 prm2 : Param)
    (hrb : op.requestBody = none)
    (hps : op.parameters = [some prm2])
    (heq : p.toVarName prm1.name = p.toVarName prm2.name)
    (hne : p.toVarName prm0.name ≠ p.toVarName prm1.name) :
    (p.operationToCodegen doc fuel path method op [some prm0, some prm1]).AllParams =
      [p.parameterToCodegen doc fuel prm0, p.parameterToCodegen doc fuel prm2] := by
  rw [operationToCodegen_AllParams_noBody p doc fuel path method op _ hrb, hps]
  show deduplicateParams
      [p.parameterToCodegen doc fuel prm0, p.parameterToCodegen doc fuel prm1,
        p.parameterToCodegen doc fuel prm2] = _
  exact dedup_three _ _ _
    (by rw [parameterToCodegen_ParamName, parameterToCodegen_ParamName]; exact heq)
    (by rw [parameterToCodegen_ParamName, parameterToCodegen_ParamName]; exact hne)

theorem C3_witness :
    (NewParser.operationToCodegen [] 1 "/pets/id" "GET"
        { parameters := [some { name := "id", in_ := "query" }] }
        [some { name := "limit", in_ := "query" },
         some { name := "id", in_ := "path" }]).AllParams =
      [NewParser.parameterToCodegen [] 1 { name := "limit", in_ := "query" },
       NewParser.parameterToCodegen [] 1 { name := "id", in_ := "query" }] :=
  C3_param_dedup NewParser [] 1 "/pets/id" "GET" _
    { name := "limit", in_ := "query" } { name := "id", in_ := "path" }
    { name := "id", in_ := "query" } rfl rfl rfl (by decide)

-- C10 machinery
lemma headD_of_some {α : Type} {l : List α} {t : α} (d : α) (h : l.head? = some t) :
    l.headD d = t := by
  cases l with
  | nil => simp at h
  | cons x xs =>
    simp only [List.head?_cons, Option.some.injEq] at h
    simp [h]

lemma headD_of_none {α : Type} {l : List α} (d : α) (h : l.head? = none) :
    l.headD d = d := by
  cases l with
  | nil => rfl
  | cons x xs => simp at h

lemma opHeader_BaseName (path method : String) (op : Operation) :
    (opHeader path method op).BaseName = op.tags.headD "default" := by
  unfold opHeader
  dsimp only
  split
  · next t heq =>
    rw [headD_of_some _ heq]
  · next heq =>
    rw [headD_of_none _ heq]

lemma pathItemParamStep_pres_BaseName (p : Parser) (doc : Doc) (fuel : Nat)
    (co : CodegenOperation) (pr : Option Param) :
    (p.pathItemParamStep doc fuel co pr).BaseName = co.BaseName := by
  unfold Parser.pathItemParamStep
  cases pr <;> rfl

lemma operationParamStep_pres_BaseName (p : Parser) (doc : Doc) (fuel : Nat)
    (co : CodegenOperation) (pr : Option Param) :
    (p.operationParamStep doc fuel co pr).BaseName = co.BaseName := by
  unfold Parser.operationParamStep
  cases pr with
  | none => rfl
  | some prm =>
    dsimp only
    repeat' split
    all_goals rfl

lemma opRequestBodyPhase_pres_BaseName (p : Parser) (doc : Doc)
    (body? : Option RequestBodyObj) (co : CodegenOperation) :
    (p.opRequestBodyPhase doc body? co).BaseName = co.BaseName := by
  unfold Parser.opRequestBodyPhase
  dsimp only
  repeat' split
  all_goals rfl

lemma responseStep_pres_BaseName (p : Parser) (doc : Doc) (fuel : Nat)
    (co : CodegenOperation) (entry : String × Option ResponseObj) :
    (p.responseStep doc fuel co entry).BaseName = co.BaseName := by
  unfold Parser.responseStep
  dsimp only
  repeat' split
  all_goals rfl

lemma opResponsesPhase_pres_BaseName (p : Parser) (doc : Doc) (fuel : Nat)
    (resps? : Option (List (String × Option ResponseObj))) (co : CodegenOperation) :
    (p.opResponsesPhase doc fuel resps? co).BaseName = co.BaseName := by
  unfold Parser.opResponsesPhase
  cases resps? with
  | none => rfl
  | some resps =>
    exact foldl_proj_pres _ _ (responseStep_pres_BaseName p doc fuel) resps co

lemma opConsumesPhase_pres_BaseName (body? : Option RequestBodyObj)
    (co : CodegenOperation) :
    (opConsumesPhase body? co).BaseName = co.BaseName := by
  unfold opConsumesPhase
  cases body? <;> rfl

lemma securityEntryStep_pres_BaseName (co : CodegenOperation)
    (nameScopes : String × List String) :
    (securityEntryStep co nameScopes).BaseName = co.BaseName := rfl

lemma opSecurityPhase_pres_BaseName (sec? : Option (List (List (String × List String))))
    (co : CodegenOperation) :
    (opSecurityPhase sec? co).BaseName = co.BaseName := by
  unfold opSecurityPhase
  cases sec? with
  | none => rfl
  | some secReqs =>
    show (secReqs.foldl _ co).BaseName = co.BaseName
    exact foldl_proj_pres _ _
      (fun b a => foldl_proj_pres _ _
        (fun b2 a2 => securityEntryStep_pres_BaseName b2 a2) a b) secReqs co

lemma opDedupPhase_pres_BaseName (co : CodegenOperation) :
    (opDedupPhase co).BaseName = co.BaseName := rfl

lemma opRebuildPhase_pres_BaseName (co : CodegenOperation) :
    (opRebuildPhase co).BaseName = co.BaseName := by
  unfold opRebuildPhase
  dsimp only
  have hs : ∀ (b : CodegenOperation) (a : CodegenParameter),
      (requiredOptionalRebuild b a).BaseName = b.BaseName := by
    intro b a
    unfold requiredOptionalRebuild
    split <;> rfl
  rw [foldl_proj_pres _ _ hs]

lemma operationToCodegen_BaseName (p : Parser) (doc : Doc) (fuel : Nat)
    (path method : String) (op : Operation) (pathParams : List (Option Param)) :
    (p.operationToCodegen doc fuel path method op pathParams).BaseName =
      op.tags.headD "default" := by
  rw [operationToCodegen_phases]
  show (opRebuildPhase _).BaseName = _
  rw [opRebuildPhase_pres_BaseName, opDedupPhase_pres_BaseName,
    opSecurityPhase_pres_BaseName,
    opConsumesPhase_pres_BaseName, opResponsesPhase_pres_BaseName,
    opRequestBodyPhase_pres_BaseName,
    foldl_proj_pres _ _ (operationParamStep_pres_BaseName p doc fuel),
    foldl_proj_pres _ _ (pathItemParamStep_pres_BaseName p doc fuel),
    opHeader_BaseName]

lemma foldl_inv {α β : Type} (P : β → Prop) (f : β → α → β)
    (h : ∀ b a, P b → P (f b a)) :
    ∀ (l : List α) (b : β), P b → P (l.foldl f b)
  | [], _, hb => hb
  | a :: rest, b, hb => foldl_inv P f h rest (f b a) (h b a hb)

lemma appendToGroup_inv (m : List (String × List CodegenOperation)) (tag : String)
    (op : CodegenOperation) (hm : groupsTagged m) (hop : op.BaseName = tag) :
    groupsTagged (appendToGroup m tag op) := by
  intro t os hmem o ho
  unfold appendToGroup at hmem
  split at hmem
  · rcases List.mem_map.1 hmem with ⟨e, hem, hee⟩
    by_cases he : (e.1 == tag) = true
    · rw [if_pos he] at hee
      cases hee
      rcases List.mem_append.1 ho with h1 | h2
      · exact hm e.1 e.2 hem o h1
      · rw [List.mem_singleton.1 h2, hop]
        exact (eq_of_beq he).symm
    · rw [if_neg he] at hee
      subst hee
      exact hm t os hem o ho
  · rcases List.mem_append.1 hmem with h1 | h2
    · exact hm t os h1 o ho
    · have hpair := List.mem_singleton.1 h2
      rw [Prod.mk.injEq] at hpair
      rw [hpair.2] at ho
      rw [List.mem_singleton.1 ho, hop, hpair.1]

lemma GetOperations_groupsTagged (p : Parser) (doc : Doc) (fuel : Nat)
    (paths : List (String × PathItem)) (methodOrder : List String) :
    groupsTagged (p.GetOperations doc fuel paths methodOrder) := by
  unfold Parser.GetOperations
  dsimp only
  refine foldl_inv groupsTagged _ ?_ _ _ ?_
  · intro acc path hacc
    split
    · exact hacc
    · next pitem heq =>
      refine foldl_inv groupsTagged _ ?_ _ _ hacc
      intro acc2 method hacc2
      split
      · exact hacc2
      · next op heqop =>
        apply appendToGroup_inv _ _ _ hacc2
        rw [operationToCodegen_BaseName]
        cases htags : op.tags with
        | nil => rfl
        | cons t ts => simp [htags, List.headD]
  · intro t os hmem
    simp at hmem

/-- C10: tag grouping.  Every group `(tag, ops)` produced by
`GetOperations` contains only operations whose `BaseName` equals the group's
tag, and `operationToCodegen` sets `BaseName` to "default" when the
operation's tag list is empty and to the first declared tag otherwise; a
concrete two-path document groups an untagged operation under "default" and
a tagged one under its tag. -/
theorem C10_default_tag (p : Parser) (doc : Doc) (fuel : Nat)
    (paths : List (String × PathItem)) (methodOrder : List String)
    (tag : String) (ops : List CodegenOperation) (o : CodegenOperation)
    (hmem : (tag, ops) ∈ p.GetOperations doc fuel paths methodOrder)
    (ho : o ∈ ops) :
    o.BaseName = tag ∧
    (∀ (path method : String) (op : Operation) (pathParams : List (Option Param)),
      (p.operationToCodegen doc fuel path method op pathParams).BaseName =
        if op.tags.isEmpty then "default" else op.tags.headD "default") ∧
    (NewParser.GetOperations [] 1 demoPaths httpMethodNames).map
        (fun g => (g.1, g.2.map fun oo => oo.BaseName)) =
      [("default", ["default"]), ("pets", ["pets"])] := by
  refine ⟨GetOperations_groupsTagged p doc fuel paths methodOrder tag ops hmem o ho,
    ?_, by decide⟩
  intro path method op pathParams
  rw [operationToCodegen_BaseName]
  cases htags : op.tags with
  | nil => rfl
  | cons t ts => simp [List.headD]

theorem C10_witness :
    (((NewParser.GetOperations [] 1 demoPaths httpMethodNames).headD
        ("", [])).2.headD {}).BaseName = "default" :=
  (C10_default_tag NewParser [] 1 demoPaths httpMethodNames "default"
    ((NewParser.GetOperations [] 1 demoPaths httpMethodNames).headD ("", [])).2
    (((NewParser.GetOperations [] 1 demoPaths httpMethodNames).headD
        ("", [])).2.headD {})
    (List.Mem.head _) (List.Mem.head _)).1

-- C8 machinery (assoc-map state invariant)

lemma findMapUpd_hit (k : String) (v : Nat) :
    ∀ st : List (String × Nat), st.any (fun e => e.1 == k) = true →
      List.find? (fun e => e.1 == k) (st.map (fun e => if e.1 == k then (k, v) else e)) =
        some (k, v)
  | [], h => by simp at h
  | hd :: tl, h => by
    cases hb : hd.1 == k with
    | true =>
      simp only [List.map_cons, if_pos hb]
      rw [List.find?_cons_of_pos _ (by simp)]
    | false =>
      simp only [List.map_cons, hb, Bool.false_eq_true, if_false]
      rw [List.find?_cons_of_neg _ (by simp [hb])]
      refine findMapUpd_hit k v tl ?_
      simp only [List.any_cons, hb, Bool.false_or] at h
      exact h

lemma findAppendUpd_hit (k : String) (v : Nat) :
    ∀ st : List (String × Nat), st.any (fun e => e.1 == k) = false →
      List.find? (fun e => e.1 == k) (st ++ [(k, v)]) = some (k, v)
  | [], _ => by
    rw [List.nil_append]
    rw [List.find?_cons_of_pos _ (by simp)]
  | hd :: tl, h => by
    simp only [List.any_cons, Bool.or_eq_false_iff] at h
    simp only [List.cons_append]
    rw [List.find?_cons_of_neg _ (by simp [h.1])]
    exact findAppendUpd_hit k v tl h.2

lemma findMapUpd_ne (k k' : String) (v : Nat) (hne : k ≠ k') :
    ∀ st : List (String × Nat),
      List.find? (fun e => e.1 == k') (st.map (fun e => if e.1 == k then (k, v) else e)) =
        List.find? (fun e => e.1 == k') st
  | [] => by simp
  | hd :: tl => by
    cases hb : hd.1 == k with
    | true =>
      have hk : hd.1 = k := by simpa using hb
      simp only [List.map_cons, if_pos hb]
      rw [List.find?_cons_of_neg _ (by simp [hne]),
          List.find?_cons_of_neg _ (by simp [hk, hne])]
      exact findMapUpd_ne k k' v hne tl
    | false =>
      simp only [List.map_cons, hb, Bool.false_eq_true, if_false]
      cases hb' : hd.1 == k' with
      | true =>
        rw [List.find?_cons_of_pos (p := fun (e : String × Nat) => e.1 == k') _ hb',
            List.find?_cons_of_pos (p := fun (e : String × Nat) => e.1 == k') _ hb']
      | false =>
        rw [List.find?_cons_of_neg _ (by simp [hb']), List.find?_cons_of_neg _ (by simp [hb'])]
        exact findMapUpd_ne k k' v hne tl

lemma findAppendUpd_ne (k k' : String) (v : Nat) (hne : k ≠ k')
    (st : List (String × Nat)) :
    List.find? (fun e => e.1 == k') (st ++ [(k, v)]) =
      List.find? (fun e => e.1 == k') st := by
  rw [List.find?_append]
  have h1 : List.find? (fun e => e.1 == k') [(k, v)] = none := by
    rw [List.find?_cons_of_neg _ (by simp [hne])]
    rfl
  rw [h1]
  cases List.find? (fun e => e.1 == k') st <;> rfl

lemma find?_updAssoc_self (st : List (String × Nat)) (k : String) (v : Nat) :
    (updAssoc st k v).find? (fun e => e.1 == k) = some (k, v) := by
  unfold updAssoc
  split
  · exact findMapUpd_hit k v st (by assumption)
  · rename_i h
    exact findAppendUpd_hit k v st (by simpa only [Bool.not_eq_true] using h)

lemma find?_updAssoc_ne (st : List (String × Nat)) (k k' : String) (v : Nat)
    (hne : k ≠ k') :
    (updAssoc st k v).find? (fun e => e.1 == k') = st.find? (fun e => e.1 == k') := by
  unfold updAssoc
  split
  · exact findMapUpd_ne k k' v hne st
  · exact findAppendUpd_ne k k' v hne st

lemma resolveAux_spec :
    ∀ (ops : List CodegenOperation) (st : List (String × Nat)) (done : List String),
    (∀ k, st.find? (fun e => e.1 == k) =
        if done.count k = 0 then none else some (k, done.count k - 1)) →
    ∀ i, ((resolveOpIdsAux st ops).map (fun o => o.OperationId))[i]? =
      ((ops.map (fun o => o.OperationId))[i]?).map (fun x =>
        if done.count x + ((ops.map (fun o => o.OperationId)).take i).count x = 0 then x
        else x ++ toString (done.count x + ((ops.map (fun o => o.OperationId)).take i).count x))
  | [], st, done, hst, i => by simp [resolveOpIdsAux]
  | op :: rest, st, done, hst, i => by
    have hx : op.OperationId = op.OperationId := rfl
    simp only [resolveOpIdsAux]
    rw [hst op.OperationId]
    by_cases hc : done.count op.OperationId = 0
    · rw [if_pos hc]
      dsimp only
      have hst' : ∀ k, (updAssoc st op.OperationId 0).find? (fun e => e.1 == k) =
          if (done ++ [op.OperationId]).count k = 0 then none
          else some (k, (done ++ [op.OperationId]).count k - 1) := by
        intro k
        by_cases hk : k = op.OperationId
        · subst hk
          rw [find?_updAssoc_self]
          simp [List.count_append, hc]
        · rw [find?_updAssoc_ne _ _ _ _ (fun h => hk h.symm), hst k]
          have : ([op.OperationId] : List String).count k = 0 := by
            simp [List.count_singleton', fun h => hk h]
          simp [List.count_append, this]
      cases i with
      | zero => simp [hc]
      | succ i =>
        have ih := resolveAux_spec rest (updAssoc st op.OperationId 0)
          (done ++ [op.OperationId]) hst' i
        simp only [List.map_cons, List.getElem?_cons_succ, List.take_succ_cons]
        rw [ih]
        cases hget : (rest.map (fun o => o.OperationId))[i]? with
        | none => rfl
        | some y =>
          simp only [Option.map_some']
          congr 1
          have hcnt : (done ++ [op.OperationId]).count y +
              ((rest.map (fun o => o.OperationId)).take i).count y =
              done.count y +
                (op.OperationId :: (rest.map (fun o => o.OperationId)).take i).count y := by
            simp [List.count_append, List.count_cons, List.count_singleton']
            omega
          rw [hcnt]
    · rw [if_neg hc]
      dsimp only
      have hpos : 0 < done.count op.OperationId := Nat.pos_of_ne_zero hc
      have hsuf : done.count op.OperationId - 1 + 1 = done.count op.OperationId := by omega
      have hst' : ∀ k, (updAssoc st op.OperationId
            (done.count op.OperationId - 1 + 1)).find? (fun e => e.1 == k) =
          if (done ++ [op.OperationId]).count k = 0 then none
          else some (k, (done ++ [op.OperationId]).count k - 1) := by
        intro k
        by_cases hk : k = op.OperationId
        · subst hk
          rw [find?_updAssoc_self]
          have hca : (done ++ [op.OperationId]).count op.OperationId =
              done.count op.OperationId + 1 := by
            simp [List.count_append]
          rw [hca, if_neg (by omega)]
          simp only [Option.some.injEq, Prod.mk.injEq, true_and]
          omega
        · rw [find?_updAssoc_ne _ _ _ _ (fun h => hk h.symm), hst k]
          have : ([op.OperationId] : List String).count k = 0 := by
            simp [List.count_singleton', fun h => hk h]
          simp [List.count_append, this]
      cases i with
      | zero =>
        simp only [List.map_cons, List.getElem?_cons_zero, Option.map_some', List.take_zero,
          List.count_nil, Nat.add_zero]
        rw [if_neg hc, hsuf]
      | succ i =>
        have ih := resolveAux_spec rest
          (updAssoc st op.OperationId (done.count op.OperationId - 1 + 1))
          (done ++ [op.OperationId]) hst' i
        simp only [List.map_cons, List.getElem?_cons_succ, List.take_succ_cons]
        rw [ih]
        cases hget : (rest.map (fun o => o.OperationId))[i]? with
        | none => rfl
        | some y =>
          simp only [Option.map_some']
          congr 1
          have hcnt : (done ++ [op.OperationId]).count y +
              ((rest.map (fun o => o.OperationId)).take i).count y =
              done.count y +
                (op.OperationId :: (rest.map (fun o => o.OperationId)).take i).count y := by
            simp [List.count_append, List.count_cons, List.count_singleton']
            omega
          rw [hcnt]

/-- C8: operation-id conflicts resolve deterministically in first-seen
order.  In the renamed list, position `i` keeps its original id when no
earlier position has the same id, and otherwise gets the suffix `k` where `k`
counts the earlier occurrences; three operations with id `listPets` resolve
to `listPets`, `listPets1`, `listPets2`. -/
theorem C8_opid_suffixes (ops : List CodegenOperation) (i : Nat) :
    ((((resolveOperationIdConflicts ops).map fun o => o.OperationId)[i]? =
      ((ops.map fun o => o.OperationId)[i]?).map fun x =>
        if ((ops.map fun o => o.OperationId).take i).count x = 0 then x
        else x ++ toString (((ops.map fun o => o.OperationId).take i).count x))) ∧
    (resolveOperationIdConflicts petOps).map (fun o => o.OperationId) =
      ["listPets", "listPets1", "listPets2"] := by
  refine ⟨?_, by decide⟩
  have hinv : ∀ k, ([] : List (String × Nat)).find? (fun e => e.1 == k) =
      if ([] : List String).count k = 0 then none
      else some (k, ([] : List String).count k - 1) := by
    intro k
    simp
  have h := resolveAux_spec ops [] [] hinv i
  simp only [List.count_nil, Nat.zero_add] at h
  exact h

/-- C1: counterexample — the resolution pass is not a function of the
document alone: `GetSecuritySchemes` emits schemes in the security-scheme
map's iteration order, and Go map iteration order is unspecified.  The same
two-scheme document presented in two iteration orders (a permutation, i.e.
the same map) yields different IR lists, so byte-identical output across runs
is not guaranteed (`GetOperations`'s per-path methods map has the same
defect). -/
theorem C1_security_schemes_order_nondeterministic :
    schemesAB.Perm schemesBA ∧
    NewParser.GetSecuritySchemes schemesAB ≠ NewParser.GetSecuritySchemes schemesBA := by
  constructor
  · decide
  · decide

/-- C2: counterexample — the operation's `ReturnType` is taken from the
LAST 2xx response with a nonempty data type in the responses map's iteration
order, not from the first 2xx in ascending sorted status-code order: with
responses `{"200": Pet, "201": Error}` iterated in declaration order the
selected return type is `Error`, and reversing the iteration order selects
`Pet` — the selection depends on map order and no sort is performed. -/
theorem C2_last_2xx_in_iteration_order_wins :
    (NewParser.operationToCodegen [] 3 "/pet" "GET" op200201 []).ReturnType = "Error" ∧
    (NewParser.operationToCodegen [] 3 "/pet" "GET" op201200 []).ReturnType = "Pet" := by
  constructor <;> rfl

/-- C4: counterexample — in the cyclic graph `Node { next: $ref Node }`
the resolved `next` property is the free-form "any" type, not a named model
reference to `Node`. -/
theorem C4_counterexample_cycle_property_is_any :
    ((NewParser.extractProperties cycleNodeDoc 2 cycleNodeSchema).map
      (fun v => (v.BaseName, v.DataType, v.IsModel, v.IsFreeFormObject)))
      = [("next", "any", false, true)] ∧ ("any" : String) ≠ "Node" := by
  constructor
  · rfl
  · decide

theorem C7_witness :
    (NewParser.schemaToProperty [] 1 "x" (Schema.mk { type_ := ["object"] })
        false).DataType ≠ "" ∧
    (NewParser.schemaToProperty [] 1 "x" (Schema.mk { type_ := ["object"] })
        false).IsFreeFormObject = true :=
  ⟨(C7_resolved_type_never_empty NewParser [] 1 "x"
      (Schema.mk { type_ := ["object"] }) false).1,
   ((C7_resolved_type_never_empty NewParser [] 1 "x"
      (Schema.mk { type_ := ["object"] }) false).2 rfl rfl rfl Nat.one_pos).1⟩

theorem C4_witness :
    (NewParser.schemaToProperty cycleNodeDoc 2 "Node" cycleNodeSchema false).DataType
        = "any" ∧
    (NewParser.schemaToProperty cycleNodeDoc 2 "Node" cycleNodeSchema false).IsModel
        = false :=
  ⟨(C4_cycle_terminates_as_any NewParser cycleNodeDoc cycleNodeDoc 1 1 "Node"
      cycleNodeSchema false rfl (List.cons_ne_nil _ _)).2.1,
   (C4_cycle_terminates_as_any NewParser cycleNodeDoc cycleNodeDoc 1 1 "Node"
      cycleNodeSchema false rfl (List.cons_ne_nil _ _)).2.2⟩

theorem C6_witness :
    (NewParser.schemaToProperty petDoc 1 "pets" petArraySchema false).IsArray = true ∧
    (NewParser.schemaToProperty petDoc 1 "pets" petArraySchema false).DataType
      = "Array<Pet>" :=
  ⟨(C6_array_of_ref_name_only NewParser petDoc petDoc 0 0 "pets" petArraySchema false
      "#/components/schemas/Pet" none rfl rfl (by decide)).1,
   (C6_array_of_ref_name_only NewParser petDoc petDoc 0 0 "pets" petArraySchema false
      "#/components/schemas/Pet" none rfl rfl (by decide)).2.2.2.2.1⟩

theorem C9_witness :
    (NewParser.schemaToProperty [] 1 "status"
        (Schema.mk { type_ := ["string"], enum := ["A", "B", "+1"] }) false).AllowableValues =
      some ({ values := ["A", "B", "+1"]
              enumVars := [
                { name := "A", value := "A" },
                { name := "B", value := "B" },
                { name := "PLUS1", value := "+1" }] } : AllowableValues) :=
  (C9_enum_member_names ["A", "B", "+1"] (by decide)).2.2
